import Mathlib

/-!
# MovtSU: the canvas blob animator and the scroll-driven process timeline

A shallow embedding of `src/FluidBackground.jsx` and `src/ProcessTimeline.jsx`.

JavaScript numbers are embedded as elements of a linear ordered field `α` (exact
arithmetic), computable at `α = ℚ`.  Drawing uses `Math.sin` and lives over `ℝ`.  Where
the rounding of doubles decides a bound (the `radius` of a fresh blob), the double
computation is given next to the exact one (`roundDouble`, `radiusDouble`).
-/

namespace MovtSU

/-! ## FluidBackground.jsx -/

namespace FluidBackground

/-- One entry of the `blobs` array (the object literal pushed by `initBlobs`).
`color` is `colors[i % colors.length]`, which is `undefined` (here `none`) when the
palette is empty. -/
structure Blob (α : Type) where
  x : α
  y : α
  radius : α
  xSpeed : α
  ySpeed : α
  color : Option String
  phase : α

/-- The mutable variables captured by the effect closure (`width`, `height`, `time`,
`blobs`), the backing-store size of the canvas, and the number of `Math.random()`
calls made so far. -/
structure State (α : Type) where
  width : α
  height : α
  canvasWidth : α
  canvasHeight : α
  time : α
  blobs : List (Blob α)
  draws : Nat

section Defs

variable {α : Type} [LinearOrderedField α]

/-- The constant `Math.PI`: the double nearest to π, which is this rational number. -/
def Math_PI : α := 884279719003555 / 281474976710656

/-- The object literal of `initBlobs` for loop index `i`; the six calls of
`Math.random()` are taken in evaluation order from the random source, starting at
call number `draws`. -/
def newBlob (colors : List String) (speed : α) (random : Nat → α) (width height : α)
    (draws i : Nat) : Blob α :=
  { x := random draws * width
    y := random (draws + 1) * height
    radius := 80 + random (draws + 2) * 120
    xSpeed := (random (draws + 3) - 0.5) * speed
    ySpeed := (random (draws + 4) - 0.5) * speed
    color := colors[i % colors.length]?
    phase := random (draws + 5) * Math_PI * 2 }

/-- The `for (let i = 0; i < numBlobs; i++)` loop of `initBlobs`, with `remaining`
iterations left and loop counter `i`: each iteration pushes one blob. -/
def initBlobsLoop (colors : List String) (speed : α) (random : Nat → α) :
    Nat → Nat → State α → State α
  | 0, _, s => s
  | remaining + 1, i, s =>
    initBlobsLoop colors speed random remaining (i + 1)
      { s with
        blobs := s.blobs ++ [newBlob colors speed random s.width s.height s.draws i]
        draws := s.draws + 6 }

/-- The constant `numBlobs` of `initBlobs`. -/
def numBlobs : Nat := 6

/-- The function `initBlobs`: empty the array, then push `numBlobs` fresh blobs. -/
def initBlobs (colors : List String) (speed : α) (random : Nat → α) (s : State α) : State α :=
  initBlobsLoop colors speed random numBlobs 0 { s with blobs := [] }

/-- The function `resize`: read the parent's bounding rectangle (`rectWidth`,
`rectHeight`), size the canvas backing store by the device pixel ratio, and
re-initialise the blobs.  (The CSS size strings and `ctx.scale` do not touch the state
modelled here.) -/
def resize (colors : List String) (speed : α) (random : Nat → α) (pixelRatio : α)
    (rectWidth rectHeight : α) (s : State α) : State α :=
  initBlobs colors speed random
    { s with
      width := rectWidth
      height := rectHeight
      canvasWidth := rectWidth * pixelRatio
      canvasHeight := rectHeight * pixelRatio }

/-- The function `updateBlob`, with the in-place mutations written as successive
record updates in source order. -/
def updateBlob (width height : α) (blob : Blob α) : Blob α :=
  let blob := { blob with x := blob.x + blob.xSpeed }
  let blob := { blob with y := blob.y + blob.ySpeed }
  let blob := if blob.x < -blob.radius then { blob with x := width + blob.radius } else blob
  let blob := if blob.x > width + blob.radius then { blob with x := -blob.radius } else blob
  let blob := if blob.y < -blob.radius then { blob with y := height + blob.radius } else blob
  let blob := if blob.y > height + blob.radius then { blob with y := -blob.radius } else blob
  blob

/-- A blob lies on the surface of size `w × h` (strictly inside on the right and at the
bottom when the surface is not degenerate). -/
def OnSurface (w h : α) (b : Blob α) : Prop :=
  0 ≤ b.x ∧ b.x ≤ w ∧ 0 ≤ b.y ∧ b.y ≤ h ∧ (0 < w → b.x < w) ∧ (0 < h → b.y < h)

/-- A blob is at most one base radius beyond the surface of size `w × h` on each side. -/
def WithinReach (w h : α) (b : Blob α) : Prop :=
  -b.radius ≤ b.x ∧ b.x ≤ w + b.radius ∧ -b.radius ≤ b.y ∧ b.y ≤ h + b.radius

end Defs

/-- The `pulseRadius` computed by `drawBlob`: `radius + Math.sin(t * 0.5 + phase) * 20`. -/
noncomputable def pulseRadius (blob : Blob ℝ) (t : ℝ) : ℝ :=
  blob.radius + Real.sin (t * 0.5 + blob.phase) * 20

/-- The default palette of the component (`colors = [...]`). -/
def defaultColors : List String := ["#ff6b00", "#ff9500", "#ffb347"]

/-- A random source used in examples: the values `0, 1/10, ..., 9/10` in rotation. -/
def sampleRandom (n : Nat) : ℚ := ((n % 10 : Nat) : ℚ) / 10

/-- A blob used in examples: it sits on the right wrap threshold of a surface of width
1000 and moves right by `0.2` per frame (a speed the default `speed = 0.5` allows). -/
def sampleBlob : Blob ℚ :=
  { x := 1100, y := 300, radius := 100, xSpeed := 1 / 5, ySpeed := -1 / 10,
    color := some "#ff6b00", phase := 1 }

/-- A prior state used in examples: two stale blobs far off the surface. -/
def sampleState : State ℚ :=
  { width := 300, height := 150, canvasWidth := 300, canvasHeight := 150, time := 4,
    blobs := [sampleBlob, { sampleBlob with x := -5000, y := 9000 }], draws := 12 }

/-- The bookkeeping of the animation loop: the frame requests of this component that
the browser still holds (`pending`), `animationRef.current` (`none` for `null`), the last
handle the browser gave out (handles are positive and increase), whether the `resize`
listener is registered, and how often `animate` has been invoked. -/
structure Loop where
  pending : List Nat
  animationRef : Option Nat
  lastHandle : Nat
  listening : Bool
  frames : Nat
deriving DecidableEq, Repr

/-- The browser call `requestAnimationFrame(animate)`: a fresh positive handle is queued
and returned. -/
def requestAnimationFrame (l : Loop) : Loop × Nat :=
  ({ l with pending := l.pending ++ [l.lastHandle + 1], lastHandle := l.lastHandle + 1 },
    l.lastHandle + 1)

/-- The browser call `cancelAnimationFrame(handle)`: the request is dropped. -/
def cancelAnimationFrame (handle : Nat) (l : Loop) : Loop :=
  { l with pending := l.pending.filter fun h => h ≠ handle }

/-- The last statement of `animate`:
`animationRef.current = requestAnimationFrame(animate)`. -/
def Loop.requestNext (l : Loop) : Loop :=
  { (requestAnimationFrame l).1 with animationRef := some (requestAnimationFrame l).2 }

/-- The cleanup returned by the effect: the listener is removed and, if
`animationRef.current` is truthy (a handle other than `0`), that request is cancelled. -/
def Loop.cleanup (l : Loop) : Loop :=
  match l.animationRef with
  | some handle =>
    if handle ≠ 0 then cancelAnimationFrame handle { l with listening := false }
    else { l with listening := false }
  | none => { l with listening := false }

/-- The exceptions the Canvas 2D calls of `drawBlob` can raise. -/
inductive CanvasError where
  | indexSizeError
  | syntaxError
deriving DecidableEq, Repr

/-- What `drawBlob` hands to the canvas: the centre, the pulsating radius (outer radius of
the gradient and radius of the arc) and the three colour stops. -/
structure Drawn where
  x : ℝ
  y : ℝ
  pulseRadius : ℝ
  stops : List (ℝ × String)

/-- The function `drawBlob`.  `createRadialGradient` and `arc` raise `IndexSizeError` on a
negative radius, and `addColorStop` raises `SyntaxError` on a string that `validColor`,
the CSS colour parser of the browser, rejects.  An `undefined` colour concatenates as the
text `undefined`. -/
noncomputable def drawBlob (validColor : String → Bool) (blob : Blob ℝ) (t : ℝ) :
    Except CanvasError Drawn :=
  let color := blob.color.getD "undefined"
  if pulseRadius blob t < 0 then Except.error CanvasError.indexSizeError
  else if validColor (color ++ "cc") = false then Except.error CanvasError.syntaxError
  else if validColor (color ++ "66") = false then Except.error CanvasError.syntaxError
  else if validColor (color ++ "00") = false then Except.error CanvasError.syntaxError
  else Except.ok
    { x := blob.x, y := blob.y, pulseRadius := pulseRadius blob t,
      stops := [(0, color ++ "cc"), (0.5, color ++ "66"), (1, color ++ "00")] }

/-- What `drawBlob` hands to the canvas when no call raises. -/
noncomputable def drawnOf (blob : Blob ℝ) (t : ℝ) : Drawn :=
  { x := blob.x, y := blob.y, pulseRadius := pulseRadius blob t,
    stops := [(0, blob.color.getD "undefined" ++ "cc"),
              (0.5, blob.color.getD "undefined" ++ "66"),
              (1, blob.color.getD "undefined" ++ "00")] }

/-- The loop `blobs.forEach(blob => { updateBlob(blob); drawBlob(blob, time) })`: the
blobs as the loop leaves them and what was drawn.  An exception ends the loop: the blob
being drawn has been updated already, the ones after it are untouched. -/
noncomputable def animateBlobs (validColor : String → Bool) (width height t : ℝ) :
    List (Blob ℝ) → List (Blob ℝ) × Except CanvasError (List Drawn)
  | [] => ([], Except.ok [])
  | blob :: rest =>
    match drawBlob validColor (updateBlob width height blob) t with
    | Except.error e => (updateBlob width height blob :: rest, Except.error e)
    | Except.ok d =>
      match animateBlobs validColor width height t rest with
      | (blobs, Except.error e) => (updateBlob width height blob :: blobs, Except.error e)
      | (blobs, Except.ok drawn) =>
        (updateBlob width height blob :: blobs, Except.ok (d :: drawn))

/-- Where one run of `animate` (or of the effect body) leaves the component: the closure
variables, the loop bookkeeping, and what was drawn or the exception that was raised. -/
structure Frame where
  state : State ℝ
  loop : Loop
  outcome : Except CanvasError (List Drawn)

/-- The function `animate`: advance the clock, update and draw every blob, then request
the next frame.  An exception raised while drawing leaves `animate` before its last
statement, so no frame is requested. -/
noncomputable def animate (validColor : String → Bool) (s : State ℝ) (l : Loop) : Frame :=
  match animateBlobs validColor s.width s.height (s.time + 0.016) s.blobs with
  | (blobs, Except.error e) =>
    { state := { s with time := s.time + 0.016, blobs := blobs }
      loop := { l with frames := l.frames + 1 }
      outcome := Except.error e }
  | (blobs, Except.ok drawn) =>
    { state := { s with time := s.time + 0.016, blobs := blobs }
      loop := Loop.requestNext { l with frames := l.frames + 1 }
      outcome := Except.ok drawn }

/-- The effect body: `resize(); animate(); window.addEventListener('resize', resize)`.
An exception raised by `animate()` leaves the effect before the listener is added. -/
noncomputable def mountEffect (validColor : String → Bool) (colors : List String)
    (speed : ℝ) (random : Nat → ℝ) (pixelRatio rectWidth rectHeight : ℝ)
    (s : State ℝ) (l : Loop) : Frame :=
  match (animate validColor
      (resize colors speed random pixelRatio rectWidth rectHeight s) l).outcome with
  | Except.error _ =>
    animate validColor (resize colors speed random pixelRatio rectWidth rectHeight s) l
  | Except.ok _ =>
    { animate validColor (resize colors speed random pixelRatio rectWidth rectHeight s) l with
      loop := { (animate validColor
        (resize colors speed random pixelRatio rectWidth rectHeight s) l).loop with
        listening := true } }

/-- The browser runs the frame request `handle`: it is taken off the list of pending
requests and its callback `animate` is invoked. -/
noncomputable def fireFrame (validColor : String → Bool) (handle : Nat) (s : State ℝ)
    (l : Loop) : Frame :=
  animate validColor s { l with pending := l.pending.erase handle }

/-- The events that can happen to a mounted animator: the browser runs a pending frame
request, or a `resize` event reaches the registered listener, which re-measures the
container and re-seeds the blobs. -/
inductive Step (validColor : String → Bool) (colors : List String) (speed : ℝ)
    (random : Nat → ℝ) : State ℝ × Loop → State ℝ × Loop → Prop where
  | frame (s : State ℝ) (l : Loop) (handle : Nat) (h : handle ∈ l.pending) :
    Step validColor colors speed random (s, l)
      ((fireFrame validColor handle s l).state, (fireFrame validColor handle s l).loop)
  | resized (s : State ℝ) (l : Loop) (pixelRatio rectWidth rectHeight : ℝ)
      (h : l.listening = true) :
    Step validColor colors speed random (s, l)
      (resize colors speed random pixelRatio rectWidth rectHeight s, l)

/-- The effect body followed by `n` frames run by the browser, each one the invocation
of the oldest pending request; with nothing pending the loop has stopped. -/
noncomputable def framesAfterMount (validColor : String → Bool) (colors : List String)
    (speed : ℝ) (random : Nat → ℝ) (pixelRatio rectWidth rectHeight : ℝ)
    (s : State ℝ) (l : Loop) : Nat → Frame
  | 0 => mountEffect validColor colors speed random pixelRatio rectWidth rectHeight s l
  | n + 1 =>
    match (framesAfterMount validColor colors speed random pixelRatio rectWidth rectHeight
        s l n).loop.pending with
    | [] => framesAfterMount validColor colors speed random pixelRatio rectWidth rectHeight
        s l n
    | handle :: _ =>
      fireFrame validColor handle
        (framesAfterMount validColor colors speed random pixelRatio rectWidth rectHeight
          s l n).state
        (framesAfterMount validColor colors speed random pixelRatio rectWidth rectHeight
          s l n).loop

/-- The loop is ticking: exactly one frame request is pending and `animationRef.current`
holds its (positive) handle. -/
def Loop.Ticking (l : Loop) : Prop :=
  ∃ handle, handle ≠ 0 ∧ l.pending = [handle] ∧ l.animationRef = some handle

/-- A blob can be drawn at every clock value: its base radius is between 80 and 200 and
its three colour stops parse. -/
def Drawable (validColor : String → Bool) (b : Blob ℝ) : Prop :=
  (80 ≤ b.radius ∧ b.radius ≤ 200) ∧ validColor (b.color.getD "undefined" ++ "cc") = true ∧
    validColor (b.color.getD "undefined" ++ "66") = true ∧
    validColor (b.color.getD "undefined" ++ "00") = true

/-- Rounding to the nearest integer, a tie going to the even one. -/
def roundHalfEven (q : ℚ) : ℤ :=
  if q - ⌊q⌋ < 1 / 2 then ⌊q⌋
  else if 1 / 2 < q - ⌊q⌋ then ⌊q⌋ + 1
  else if ⌊q⌋ % 2 = 0 then ⌊q⌋ else ⌊q⌋ + 1

/-- The spacing of the doubles around `x ≠ 0`: `2 ^ (e - 52)` where
`2 ^ e ≤ |x| < 2 ^ (e + 1)` (53 significant bits). -/
def doubleSpacing (x : ℚ) : ℚ := (2 : ℚ) ^ (Int.log 2 |x| - 52)

/-- The double nearest to `x` (round to nearest, ties to even), the result of one
floating-point operation whose exact value is `x`.  The exponent range is left unbounded:
the values rounded here are far from overflow and from the subnormal range. -/
def roundDouble (x : ℚ) : ℚ :=
  if x = 0 then 0 else (roundHalfEven (x / doubleSpacing x) : ℚ) * doubleSpacing x

/-- The `radius` field of the object literal of `initBlobs`, `80 + Math.random() * 120`,
as double arithmetic computes it from the random value `r`: each of the two operations
rounds. -/
def radiusDouble (r : ℚ) : ℚ := roundDouble (80 + roundDouble (r * 120))

/-- The largest double below 1, `1 - 2^-53`. -/
def largestBelowOne : ℚ := 1 - 1 / 2 ^ 53

/-- A hexadecimal digit. -/
def isHexDigit (c : Char) : Bool :=
  c.isDigit || (decide ('a' ≤ c) && decide (c ≤ 'f')) || (decide ('A' ≤ c) && decide (c ≤ 'F'))

/-- The hex notations of a CSS colour, `#rgb`, `#rgba`, `#rrggbb` and `#rrggbbaa`: the
notation a palette entry followed by two hex digits has to be in. -/
def cssHexColor (s : String) : Bool :=
  match s.toList with
  | '#' :: digits =>
    digits.all isHexDigit &&
      (digits.length == 3 || digits.length == 4 || digits.length == 6 || digits.length == 8)
  | _ => false

/-- A fresh loop: nothing pending, `animationRef.current` still `null`. -/
def freshLoop : Loop :=
  { pending := [], animationRef := none, lastHandle := 0, listening := false, frames := 0 }

/-- A random source over the reals used in examples. -/
noncomputable def sampleRandomReal (n : Nat) : ℝ := ((sampleRandom n : ℚ) : ℝ)

/-- A prior state over the reals used in examples. -/
noncomputable def sampleStateReal : State ℝ :=
  { width := 300, height := 150, canvasWidth := 300, canvasHeight := 150, time := 4,
    blobs := [], draws := 12 }

end FluidBackground

/-! ## ProcessTimeline.jsx -/

namespace ProcessTimeline

/-- One entry of the `STEPS` table. -/
structure Step where
  number : String
  title : String
  description : String

/-- The constant `STEPS`. -/
def STEPS : List Step :=
  [ { number := "01", title := "Initial Consultation",
      description := "We begin with a comprehensive discussion to understand your immigration goals and assess your eligibility." },
    { number := "02", title := "Case Evaluation",
      description := "Our experts analyze your documents, background, and options to create a tailored immigration strategy." },
    { number := "03", title := "Strategy & Documentation",
      description := "We prepare all required paperwork with precision, ensuring compliance with Saudi and UAE regulations." },
    { number := "04", title := "Submission & Follow-Up",
      description := "Your application is submitted and tracked. We handle all communication with immigration authorities." },
    { number := "05", title := "Final Approval & Support",
      description := "Celebrate your approval! We provide ongoing support for your transition to your new destination." } ]

/-- The array `stepsRef.current`: the render assigns one element per entry of `STEPS`
(`ref={el => stepsRef.current[index] = el}`); an element is identified with its step,
and a slot may hold `null` (`none`). -/
def stepsRef : List (Option Step) := STEPS.map some

/-- The edge of the trigger element named in a ScrollTrigger position string. -/
inductive Edge where
  | top
  | bottom
deriving DecidableEq, Repr

/-- A ScrollTrigger position string: `top 60%` is `⟨top, 0, 60⟩`, and
`top+=${startPercent}% 70%` is `⟨top, startPercent, 70⟩`. -/
structure TriggerPos (α : Type) where
  edge : Edge
  offsetPercent : α
  viewportPercent : α

/-- The `scrollTrigger` object literal: `start`, `end` and `scrub` (the `trigger` is the
section in every use). -/
structure ScrollTriggerVars (α : Type) where
  start : TriggerPos α
  stop : TriggerPos α
  scrub : α

/-- The easing names used by the component. -/
inductive Ease where
  | none
  | power2Out
deriving DecidableEq, Repr

/-- The three animated properties of a step element: `opacity`, `y` and the radius of
the `blur(..px)` filter. -/
structure StepVisual (α : Type) where
  opacity : α
  y : α
  blur : α

/-- The stroke dash properties of the flight path. -/
structure PathStyle (α : Type) where
  strokeDasharray : α
  strokeDashoffset : α

/-- The per-step animation set up by one iteration of `steps.forEach`: the values of
`gsap.set`, and the target, ease and scroll trigger of `gsap.to`. -/
structure StepTween (α : Type) where
  initial : StepVisual α
  target : StepVisual α
  ease : Ease
  scrollTrigger : ScrollTriggerVars α

/-- A command of the `d` attribute: `M x y` or `C x1 y1, x2 y2, x y`. -/
inductive PathCmd (α : Type) where
  | M (x y : α)
  | C (x1 y1 x2 y2 x y : α)

/-- A point of the SVG user space. -/
structure Point (α : Type) where
  x : α
  y : α

/-- One cubic Bezier segment with its four control points. -/
structure Cubic (α : Type) where
  p0 : Point α
  p1 : Point α
  p2 : Point α
  p3 : Point α

/-- A sampled pose: a point of the path and the tangent vector there. -/
structure Pose (α : Type) where
  point : Point α
  tangent : Point α

section Defs

variable {α : Type} [LinearOrderedField α]

/-- The `scrollTrigger` of the timeline `tl`:
`start: 'top 60%', end: 'bottom 30%', scrub: 2`. -/
def timelineScrollTrigger : ScrollTriggerVars α :=
  { start := { edge := Edge.top, offsetPercent := 0, viewportPercent := 60 }
    stop := { edge := Edge.bottom, offsetPercent := 0, viewportPercent := 30 }
    scrub := 2 }

/-- The values of `gsap.set(path, ...)`: dash array and dash offset both `pathLength`. -/
def initialPathStyle (pathLength : α) : PathStyle α :=
  { strokeDasharray := pathLength, strokeDashoffset := pathLength }

/-- The values of `gsap.set(step, ...)`: `opacity: 0.15, y: 40, filter: 'blur(5px)'`. -/
def stepInitial : StepVisual α := { opacity := 0.15, y := 40, blur := 5 }

/-- The targets of `gsap.to(step, ...)`: `opacity: 1, y: 0, filter: 'blur(0px)'`. -/
def stepTarget : StepVisual α := { opacity := 1, y := 0, blur := 0 }

/-- The three constants computed in the body of `steps.forEach` for `index`, returned
as `(startPercent, endPercent)`; `length` is `steps.length`. -/
def stepWindow (length index : Nat) : α × α :=
  let stepProgress : α := (index : α) / ((length : α) - 1)
  let startPercent : α := stepProgress * 75
  let endPercent : α := startPercent + 20
  (startPercent, endPercent)

/-- The body of the `steps.forEach` callback for a non-null step. -/
def stepTween (length index : Nat) : StepTween α :=
  { initial := stepInitial
    target := stepTarget
    ease := Ease.power2Out
    scrollTrigger :=
      { start := { edge := Edge.top, offsetPercent := (stepWindow length index).1,
                   viewportPercent := 70 }
        stop := { edge := Edge.top, offsetPercent := (stepWindow length index).2,
                  viewportPercent := 50 }
        scrub := 1.5 } }

/-- The loop `steps.forEach((step, index) => ...)` from position `index` on: a `null`
step is skipped (`if (!step) return`), every other one gets its tween. -/
def stepsForEachFrom (length : Nat) : Nat → List (Option Step) → List (Option (StepTween α))
  | _, [] => []
  | index, none :: rest => none :: stepsForEachFrom length (index + 1) rest
  | index, some _ :: rest =>
    some (stepTween length index) :: stepsForEachFrom length (index + 1) rest

/-- The loop `steps.forEach((step, index) => ...)`. -/
def stepsForEach (steps : List (Option Step)) : List (Option (StepTween α)) :=
  stepsForEachFrom steps.length 0 steps

/-- The `d` attribute of the flight path. -/
def flightPathD : List (PathCmd α) :=
  [ PathCmd.M 600 0,
    PathCmd.C 600 50 600 80 600 100,
    PathCmd.C 600 140 500 160 350 180,
    PathCmd.C 150 210 50 250 50 320,
    PathCmd.C 50 390 150 420 350 440,
    PathCmd.C 500 455 600 470 600 500,
    PathCmd.C 600 530 700 550 850 570,
    PathCmd.C 1050 600 1150 640 1150 710,
    PathCmd.C 1150 780 1050 820 850 840,
    PathCmd.C 700 855 600 870 600 900,
    PathCmd.C 600 930 500 950 350 970,
    PathCmd.C 150 1000 50 1040 50 1110,
    PathCmd.C 50 1180 150 1220 350 1240,
    PathCmd.C 500 1255 600 1270 600 1370,
    PathCmd.C 600 1330 700 1350 850 1370,
    PathCmd.C 1050 1400 1150 1440 1150 1510,
    PathCmd.C 1150 1580 1050 1620 850 1640,
    PathCmd.C 700 1655 600 1670 600 1770,
    PathCmd.C 620 1750 500 1750 350 1770,
    PathCmd.C 150 1800 50 1840 50 1910,
    PathCmd.C 50 1950 150 1980 350 1990,
    PathCmd.C 500 1995 600 2000 600 2000 ]

/-- The cubic segments of a command list: each `C` starts at the current point, which
`M` sets and every `C` moves to its end point. -/
def toSegments : Point α → List (PathCmd α) → List (Cubic α)
  | _, [] => []
  | _, PathCmd.M x y :: rest => toSegments { x := x, y := y } rest
  | current, PathCmd.C x1 y1 x2 y2 x y :: rest =>
    { p0 := current, p1 := { x := x1, y := y1 }, p2 := { x := x2, y := y2 },
      p3 := { x := x, y := y } } :: toSegments { x := x, y := y } rest

/-- The flight path as a chain of cubic segments. -/
def flightPath : List (Cubic α) := toSegments { x := 0, y := 0 } flightPathD

/-- The cubic Bernstein polynomial on one coordinate. -/
def bezier (a b c d t : α) : α :=
  (1 - t) ^ 3 * a + 3 * (1 - t) ^ 2 * t * b + 3 * (1 - t) * t ^ 2 * c + t ^ 3 * d

/-- The derivative of `bezier` in `t`. -/
def bezierDeriv (a b c d t : α) : α :=
  3 * (1 - t) ^ 2 * (b - a) + 6 * (1 - t) * t * (c - b) + 3 * t ^ 2 * (d - c)

/-- The point of a segment at local parameter `t`. -/
def Cubic.pointAt (s : Cubic α) (t : α) : Point α :=
  { x := bezier s.p0.x s.p1.x s.p2.x s.p3.x t, y := bezier s.p0.y s.p1.y s.p2.y s.p3.y t }

/-- The tangent vector of a segment at local parameter `t`. -/
def Cubic.tangentAt (s : Cubic α) (t : α) : Point α :=
  { x := bezierDeriv s.p0.x s.p1.x s.p2.x s.p3.x t,
    y := bezierDeriv s.p0.y s.p1.y s.p2.y s.p3.y t }

/-- The second derivative of `bezier` in `t`. -/
def bezierSecond (a b c d t : α) : α :=
  6 * (1 - t) * (c - 2 * b + a) + 6 * t * (d - 2 * c + b)

/-- The third derivative of `bezier`, a constant. -/
def bezierThird (a b c d : α) : α :=
  6 * (d - 3 * c + 3 * b - a)

/-- The direction of travel on a segment at local parameter `t`: the tangent vector
where it does not vanish; where it vanishes, the limit of the tangent direction, taken
from the left at the end of the segment (`t ≥ 1`) and from the right before it, which
the second derivative gives (up to sign), or the third where that vanishes too. -/
def Cubic.directionAt (s : Cubic α) (t : α) : Point α :=
  if (s.tangentAt t).x = 0 ∧ (s.tangentAt t).y = 0 then
    if bezierSecond s.p0.x s.p1.x s.p2.x s.p3.x t = 0 ∧
        bezierSecond s.p0.y s.p1.y s.p2.y s.p3.y t = 0 then
      { x := bezierThird s.p0.x s.p1.x s.p2.x s.p3.x,
        y := bezierThird s.p0.y s.p1.y s.p2.y s.p3.y }
    else if t < 1 then
      { x := bezierSecond s.p0.x s.p1.x s.p2.x s.p3.x t,
        y := bezierSecond s.p0.y s.p1.y s.p2.y s.p3.y t }
    else
      { x := -bezierSecond s.p0.x s.p1.x s.p2.x s.p3.x t,
        y := -bezierSecond s.p0.y s.p1.y s.p2.y s.p3.y t }
  else s.tangentAt t

/-- The pose on a segment at local parameter `t`: the point and the direction of travel. -/
def Cubic.poseAt (s : Cubic α) (t : α) : Pose α :=
  { point := s.pointAt t, tangent := s.directionAt t }

/-- The vector from `a` to `b`. -/
def Point.to (a b : Point α) : Point α := { x := b.x - a.x, y := b.y - a.y }

/-- The first of three vectors that is not the zero vector (the third if none is). -/
def firstNonzero (u v w : Point α) : Point α :=
  if u.x = 0 ∧ u.y = 0 then (if v.x = 0 ∧ v.y = 0 then w else v) else u

/-- Two vectors point the same way: one is a positive multiple of the other. -/
def SameDirection (u v : Point α) : Prop :=
  ∃ k : α, 0 < k ∧ u.x = k * v.x ∧ u.y = k * v.y

/-- The direction in which a segment leaves its first point, read off the control
points: towards the first control point that differs from it. -/
def Cubic.startDirection (s : Cubic α) : Point α :=
  firstNonzero (s.p0.to s.p1) (s.p0.to s.p2) (s.p0.to s.p3)

/-- The direction in which a segment reaches its last point, read off the control
points: away from the last control point that differs from it. -/
def Cubic.endDirection (s : Cubic α) : Point α :=
  firstNonzero (s.p2.to s.p3) (s.p1.to s.p3) (s.p0.to s.p3)

/-- The pose where a path starts, read off the control points: the first point of the
first segment and the direction in which that segment leaves it. -/
def startPose (segs : List (Cubic α)) : Option (Pose α) :=
  segs.head?.map fun s => { point := s.p0, tangent := s.startDirection }

/-- The pose where a path ends, read off the control points: the last point of the last
segment and the direction in which that segment reaches it. -/
def endPose (segs : List (Cubic α)) : Option (Pose α) :=
  segs.getLast?.map fun s => { point := s.p3, tangent := s.endDirection }

/-- Two poses agree: the same point and the same direction. -/
def Pose.Agrees (a b : Pose α) : Prop :=
  a.point = b.point ∧ SameDirection a.tangent b.tangent

/-- Two optional poses agree: both are there and agree. -/
def posesAgree (a b : Option (Pose α)) : Prop :=
  ∃ pa pb, a = some pa ∧ b = some pb ∧ pa.Agrees pb

/-- Modelled from the spec: the scroll offset at which a ScrollTrigger position is
reached (computed inside the gsap ScrollTrigger plugin, which is not under src/): the
named edge of the section, moved down by `offsetPercent` of the section height, reaches
`viewportPercent` of the viewport height.  `sectionTop` is the document offset of the
section top. -/
def triggerScroll (pos : TriggerPos α) (sectionTop sectionHeight viewportHeight : α) : α :=
  sectionTop + (match pos.edge with
      | Edge.top => 0
      | Edge.bottom => sectionHeight)
    + pos.offsetPercent / 100 * sectionHeight
    - pos.viewportPercent / 100 * viewportHeight

/-- Clamp to the unit interval. -/
def clamp01 (v : α) : α := max 0 (min 1 v)

/-- Modelled from the spec: the progress of a scroll trigger (computed inside the gsap
ScrollTrigger plugin, which is not under src/): the fraction of the trigger window
scrolled through, clamped to `[0,1]` outside it. -/
def progress (vars : ScrollTriggerVars α) (sectionTop sectionHeight viewportHeight : α)
    (scroll : α) : α :=
  clamp01 ((scroll - triggerScroll vars.start sectionTop sectionHeight viewportHeight) /
    (triggerScroll vars.stop sectionTop sectionHeight viewportHeight
      - triggerScroll vars.start sectionTop sectionHeight viewportHeight))

/-- Modelled from the spec: the easing curves of gsap (not under src/): `none` is the
identity (a linear drive) and `power2.out` is the cubic ease-out `1 - (1 - q)^3`. -/
def Ease.apply : Ease → α → α
  | Ease.none, q => q
  | Ease.power2Out, q => 1 - (1 - q) ^ 3

/-- Modelled from the spec: the value of a tweened property at tween progress `q`
(computed inside gsap, which is not under src/): the interpolation from the value the
property had to the target value, through the ease. -/
def tweenValue (ease : Ease) (startValue endValue q : α) : α :=
  startValue + (endValue - startValue) * ease.apply q

/-- The stroke of the flight path at timeline progress `p`: `gsap.set` followed by
`tl.to(path, { strokeDashoffset: 0, ease: 'none', duration: 1 }, 0)`. -/
def pathStyleAt (pathLength p : α) : PathStyle α :=
  { initialPathStyle pathLength with
    strokeDashoffset := tweenValue Ease.none (initialPathStyle pathLength).strokeDashoffset 0 p }

/-- The visual state of a step set up by `tw` at local reveal progress `q`. -/
def StepTween.visualAt (tw : StepTween α) (q : α) : StepVisual α :=
  { opacity := tweenValue tw.ease tw.initial.opacity tw.target.opacity q
    y := tweenValue tw.ease tw.initial.y tw.target.y q
    blur := tweenValue tw.ease tw.initial.blur tw.target.blur q }

/-- Sampling a chain of segments at chain parameter `u`, one unit per segment. -/
def sampleSegments : List (Cubic α) → α → Option (Pose α)
  | [], _ => none
  | [s], u => some (s.poseAt u)
  | s :: s2 :: rest, u => if u < 1 then some (s.poseAt u) else sampleSegments (s2 :: rest) (u - 1)

/-- Modelled from the spec: the marker pose at progress `p` (computed inside the gsap
MotionPathPlugin, which is not under src/): the path sampled at curve parameter `p`,
giving a point and the tangent there; the `n` segments of the chain share `[0,1]`
equally. -/
def markerPose (segs : List (Cubic α)) (p : α) : Option (Pose α) :=
  sampleSegments segs (p * (segs.length : α))

end Defs

/-- A segment used in examples: the third one, the first leftmost turn of the path. -/
def sampleSegment : Cubic ℚ :=
  { p0 := { x := 350, y := 180 }, p1 := { x := 150, y := 210 },
    p2 := { x := 50, y := 250 }, p3 := { x := 50, y := 320 } }

end ProcessTimeline

/-! ## App.jsx: the parallax of the services title -/

namespace App

/-- What `handleScroll` reads: the window size, whether `servicesTitleRef.current` and
`servicesRightRef.current` are set, and `getBoundingClientRect().top` of every
`.service-item` of the right column, in document order. -/
structure ScrollInput (α : Type) where
  innerWidth : α
  innerHeight : α
  titleMounted : Bool
  rightMounted : Bool
  itemTops : List α

/-- The constants computed by `handleScroll` on the desktop path. -/
structure Parallax (α : Type) where
  firstPointY : α
  lastPointY : α
  windowCenter : α
  totalDistance : α
  currentOffset : α
  progress : α
  clampedProgress : α
  titleTravel : α

section Defs

variable {α : Type} [LinearOrderedField α]

/-- The arithmetic of `handleScroll` from `firstPointY` to `titleTravel`, in source
order; `firstTop` and `lastTop` are `firstRect.top` and `lastRect.top`. -/
def parallax (innerHeight firstTop lastTop : α) : Parallax α :=
  let firstPointY := firstTop + 35
  let lastPointY := lastTop + 35
  let windowCenter := innerHeight / 2
  let totalDistance := lastPointY - firstPointY
  let currentOffset := windowCenter - firstPointY
  let progress := if totalDistance ≠ 0 then currentOffset / |totalDistance| else 0
  let clampedProgress := max 0 (min 1 progress)
  let titleTravel := |totalDistance| * clampedProgress
  { firstPointY := firstPointY, lastPointY := lastPointY, windowCenter := windowCenter,
    totalDistance := totalDistance, currentOffset := currentOffset, progress := progress,
    clampedProgress := clampedProgress, titleTravel := titleTravel }

/-- The function `handleScroll`: the `translateY` (in px) it writes to the title, or
`none` when it returns without writing. -/
def handleScroll (i : ScrollInput α) : Option α :=
  if i.innerWidth ≤ 768 then
    if i.titleMounted then some 0 else none
  else if !i.titleMounted || !i.rightMounted then none
  else
    match i.itemTops.head?, i.itemTops.getLast? with
    | some firstTop, some lastTop => some (parallax i.innerHeight firstTop lastTop).titleTravel
    | _, _ => none

end Defs

/-- A desktop window of 1024 × 800 in which the last service item is laid out above the
first one and its point is at the window centre. -/
def reversedInput : ScrollInput ℚ :=
  { innerWidth := 1024, innerHeight := 800, titleMounted := true, rightMounted := true,
    itemTops := [565, 465, 365] }

/-- A desktop window of 1024 × 1200 with three service items in document order, the
point of the last one at the window centre. -/
def desktopInput : ScrollInput ℚ :=
  { innerWidth := 1024, innerHeight := 1200, titleMounted := true, rightMounted := true,
    itemTops := [365, 465, 565] }

end App

/-! ## Theorems: FluidBackground.jsx -/

namespace FluidBackground

section Lemmas

variable {α : Type} [LinearOrderedField α]

theorem newBlob_onSurface (colors : List String) (speed : α) (random : Nat → α)
    (w h : α) (draws i : Nat) (hw : 0 ≤ w) (hh : 0 ≤ h)
    (hr : ∀ n, 0 ≤ random n ∧ random n < 1) :
    OnSurface w h (newBlob colors speed random w h draws i) := by
  obtain ⟨hx0, hx1⟩ := hr draws
  obtain ⟨hy0, hy1⟩ := hr (draws + 1)
  refine ⟨mul_nonneg hx0 hw, mul_le_of_le_one_left hw hx1.le, mul_nonneg hy0 hh,
    mul_le_of_le_one_left hh hy1.le, fun h0 => ?_, fun h0 => ?_⟩
  · exact mul_lt_of_lt_one_left h0 hx1
  · exact mul_lt_of_lt_one_left h0 hy1

theorem initBlobsLoop_spec (colors : List String) (speed : α) (random : Nat → α)
    (hr : ∀ n, 0 ≤ random n ∧ random n < 1) :
    ∀ (remaining i : Nat) (s : State α), 0 ≤ s.width → 0 ≤ s.height →
      (∀ b ∈ s.blobs, OnSurface s.width s.height b) →
      (initBlobsLoop colors speed random remaining i s).blobs.length
          = s.blobs.length + remaining ∧
        ∀ b ∈ (initBlobsLoop colors speed random remaining i s).blobs,
          OnSurface s.width s.height b := by
  intro remaining
  induction remaining with
  | zero => intro i s _ _ hs; exact ⟨rfl, hs⟩
  | succ n ih =>
    intro i s hw hh hs
    have key := ih (i + 1)
      { s with
        blobs := s.blobs ++ [newBlob colors speed random s.width s.height s.draws i]
        draws := s.draws + 6 } hw hh (by
        intro b hb
        rcases List.mem_append.mp hb with hb | hb
        · exact hs b hb
        · rw [List.mem_singleton.mp hb]
          exact newBlob_onSurface colors speed random s.width s.height s.draws i hw hh hr)
    refine ⟨?_, key.2⟩
    have h1 := key.1
    simp only [List.length_append, List.length_singleton] at h1
    rw [initBlobsLoop, h1]
    omega

/-- The horizontal coordinate after `updateBlob`: the two `x` tests in source order. -/
theorem updateBlob_x (w h : α) (blob : Blob α) :
    (updateBlob w h blob).x =
      if (if blob.x + blob.xSpeed < -blob.radius then w + blob.radius
          else blob.x + blob.xSpeed) > w + blob.radius
      then -blob.radius
      else (if blob.x + blob.xSpeed < -blob.radius then w + blob.radius
          else blob.x + blob.xSpeed) := by
  simp only [updateBlob]
  split_ifs <;> rfl

/-- The vertical coordinate after `updateBlob`: the two `y` tests in source order. -/
theorem updateBlob_y (w h : α) (blob : Blob α) :
    (updateBlob w h blob).y =
      if (if blob.y + blob.ySpeed < -blob.radius then h + blob.radius
          else blob.y + blob.ySpeed) > h + blob.radius
      then -blob.radius
      else (if blob.y + blob.ySpeed < -blob.radius then h + blob.radius
          else blob.y + blob.ySpeed) := by
  simp only [updateBlob]
  split_ifs <;> rfl

/-- The blobs pushed by the loop of `initBlobs`, in order. -/
theorem initBlobsLoop_blobs (colors : List String) (speed : α) (random : Nat → α) :
    ∀ (remaining i : Nat) (s : State α),
      (initBlobsLoop colors speed random remaining i s).blobs
        = s.blobs ++ (List.range remaining).map fun k =>
            newBlob colors speed random s.width s.height (s.draws + 6 * k) (i + k) := by
  intro remaining
  induction remaining with
  | zero => intro i s; simp [initBlobsLoop]
  | succ n ih =>
    intro i s
    rw [initBlobsLoop, ih, List.range_succ_eq_map]
    simp only [List.map_cons, List.map_map, List.append_assoc, List.singleton_append,
      Nat.mul_zero, Nat.add_zero]
    congr 2
    apply List.map_congr_left
    intro k _
    simp only [Function.comp, Nat.succ_eq_add_one]
    congr 1 <;> omega

/-- The blobs after `initBlobs`: six fresh ones, whatever was there before. -/
theorem initBlobs_blobs (colors : List String) (speed : α) (random : Nat → α) (s : State α) :
    (initBlobs colors speed random s).blobs
      = (List.range numBlobs).map fun k =>
          newBlob colors speed random s.width s.height (s.draws + 6 * k) k := by
  rw [initBlobs, initBlobsLoop_blobs]
  simp

/-- The blobs after `resize`. -/
theorem resize_blobs (colors : List String) (speed : α) (random : Nat → α)
    (pixelRatio w h : α) (s : State α) :
    (resize colors speed random pixelRatio w h s).blobs
      = (List.range numBlobs).map fun k =>
          newBlob colors speed random w h (s.draws + 6 * k) k := by
  rw [resize, initBlobs_blobs]

theorem initBlobs_getElem (colors : List String) (speed : α) (random : Nat → α)
    (s : State α) (i : Nat) (hi : i < 6) :
    (initBlobs colors speed random s).blobs[i]?
      = some (newBlob colors speed random s.width s.height (s.draws + 6 * i) i) := by
  rw [initBlobs_blobs, List.getElem?_map, List.getElem?_range (by simpa [numBlobs] using hi)]
  rfl

theorem newBlob_radius (colors : List String) (speed : α) (random : Nat → α)
    (w h : α) (draws i : Nat) (hr : ∀ n, 0 ≤ random n ∧ random n < 1) :
    80 ≤ (newBlob colors speed random w h draws i).radius ∧
      (newBlob colors speed random w h draws i).radius < 200 := by
  obtain ⟨h0, h1⟩ := hr (draws + 2)
  simp only [newBlob]
  constructor <;> linarith

theorem newBlob_speeds (colors : List String) (speed : α) (random : Nat → α)
    (w h : α) (draws i : Nat) (hspeed : 0 < speed) (hr : ∀ n, 0 ≤ random n ∧ random n < 1) :
    (-(speed / 2) ≤ (newBlob colors speed random w h draws i).xSpeed ∧
      (newBlob colors speed random w h draws i).xSpeed < speed / 2) ∧
    (-(speed / 2) ≤ (newBlob colors speed random w h draws i).ySpeed ∧
      (newBlob colors speed random w h draws i).ySpeed < speed / 2) := by
  obtain ⟨hx0, hx1⟩ := hr (draws + 3)
  obtain ⟨hy0, hy1⟩ := hr (draws + 4)
  simp only [newBlob]
  have e : ∀ r : α, (r - 0.5) * speed = r * speed - speed / 2 := by
    intro r; norm_num; ring
  rw [e, e]
  have a1 := mul_nonneg hx0 hspeed.le
  have a2 := mul_lt_of_lt_one_left hspeed hx1
  have a3 := mul_nonneg hy0 hspeed.le
  have a4 := mul_lt_of_lt_one_left hspeed hy1
  refine ⟨⟨?_, ?_⟩, ⟨?_, ?_⟩⟩ <;> linarith

theorem Math_PI_pos : (0 : α) < Math_PI := by
  unfold Math_PI
  positivity

theorem newBlob_phase (colors : List String) (speed : α) (random : Nat → α)
    (w h : α) (draws i : Nat) (hr : ∀ n, 0 ≤ random n ∧ random n < 1) :
    0 ≤ (newBlob colors speed random w h draws i).phase ∧
      (newBlob colors speed random w h draws i).phase < 2 * Math_PI := by
  obtain ⟨h0, h1⟩ := hr (draws + 5)
  have hpi : (0 : α) < Math_PI := Math_PI_pos
  simp only [newBlob]
  have a1 := mul_nonneg h0 hpi.le
  have a2 := mul_lt_of_lt_one_left hpi h1
  constructor <;> linarith

/-- Every blob left by `resize` is fresh: on the surface, with base radius at least 80. -/
theorem resize_blob_fresh (colors : List String) (speed : α) (random : Nat → α)
    (pixelRatio w h : α) (s : State α) (hw : 0 ≤ w) (hh : 0 ≤ h)
    (hr : ∀ n, 0 ≤ random n ∧ random n < 1)
    (b : Blob α) (hb : b ∈ (resize colors speed random pixelRatio w h s).blobs) :
    OnSurface w h b ∧ 80 ≤ b.radius := by
  rw [resize_blobs] at hb
  obtain ⟨k, -, rfl⟩ := List.mem_map.mp hb
  exact ⟨newBlob_onSurface colors speed random w h _ k hw hh hr,
    (newBlob_radius colors speed random w h _ k hr).1⟩

theorem withinReach_of_onSurface {w h : α} {b : Blob α} (hrad : 0 ≤ b.radius)
    (hs : OnSurface w h b) : WithinReach w h b := by
  obtain ⟨h1, h2, h3, h4, -, -⟩ := hs
  refine ⟨?_, ?_, ?_, ?_⟩ <;> linarith

theorem updateBlob_radius (w h : α) (blob : Blob α) :
    (updateBlob w h blob).radius = blob.radius := by
  simp only [updateBlob]
  split_ifs <;> rfl

/-- One `updateBlob` step brings any blob within reach of the surface. -/
theorem updateBlob_withinReach (w h : α) (hw : 0 ≤ w) (hh : 0 ≤ h) (blob : Blob α)
    (hrad : 0 ≤ blob.radius) : WithinReach w h (updateBlob w h blob) := by
  unfold WithinReach
  rw [updateBlob_x, updateBlob_y, updateBlob_radius]
  refine ⟨?_, ?_, ?_, ?_⟩ <;> split_ifs <;> linarith

theorem iterate_updateBlob_withinReach (w h : α) (hw : 0 ≤ w) (hh : 0 ≤ h) (blob : Blob α)
    (hrad : 0 ≤ blob.radius) (h0 : WithinReach w h blob) :
    ∀ n, WithinReach w h ((updateBlob w h)^[n] blob) ∧
      ((updateBlob w h)^[n] blob).radius = blob.radius := by
  intro n
  induction n with
  | zero => exact ⟨h0, rfl⟩
  | succ n ih =>
    rw [Function.iterate_succ_apply']
    exact ⟨updateBlob_withinReach w h hw hh _ (by rw [ih.2]; exact hrad),
      by rw [updateBlob_radius, ih.2]⟩

theorem Math_PI_lt_pi : (Math_PI : ℝ) < Real.pi := by
  have h := Real.pi_gt_d20
  unfold Math_PI
  refine lt_trans ?_ h
  norm_num

end Lemmas

/-- C1: for every container width `w ≥ 0` and height `h ≥ 0`, every prior state
(any blob list) and every random source with values in `[0,1)`, `resize` (through
`initBlobs`) leaves exactly 6 blobs, each with `0 ≤ x ≤ w` and `0 ≤ y ≤ h`, strictly
below `w` and `h` when these are positive. -/
theorem resize_six_blobs_on_surface {α : Type} [LinearOrderedField α]
    (colors : List String) (speed : α) (random : Nat → α) (pixelRatio w h : α)
    (s : State α) (hw : 0 ≤ w) (hh : 0 ≤ h) (hr : ∀ n, 0 ≤ random n ∧ random n < 1) :
    (resize colors speed random pixelRatio w h s).blobs.length = 6 ∧
      ∀ b ∈ (resize colors speed random pixelRatio w h s).blobs,
        0 ≤ b.x ∧ b.x ≤ w ∧ 0 ≤ b.y ∧ b.y ≤ h ∧ (0 < w → b.x < w) ∧ (0 < h → b.y < h) := by
  have key := initBlobsLoop_spec colors speed random hr numBlobs 0
    { width := w, height := h, canvasWidth := w * pixelRatio,
      canvasHeight := h * pixelRatio, time := s.time, blobs := [], draws := s.draws }
    hw hh (by intro b hb; cases hb)
  exact ⟨by simpa [numBlobs] using key.1, key.2⟩

theorem sampleRandom_unit (n : Nat) : 0 ≤ sampleRandom n ∧ sampleRandom n < 1 := by
  unfold sampleRandom
  have h : ((n % 10 : Nat) : ℚ) < 10 := by exact_mod_cast Nat.mod_lt n (by norm_num)
  have h0 : (0 : ℚ) ≤ ((n % 10 : Nat) : ℚ) := Nat.cast_nonneg _
  constructor
  · positivity
  · rw [div_lt_one (by norm_num)]; exact h

/-- Witness for C1: a resize to 800 × 600 of a state holding two stale blobs. -/
theorem resize_six_blobs_on_surface_witness :
    (0 : ℚ) ≤ 800 ∧ (0 : ℚ) ≤ 600 ∧ (∀ n, 0 ≤ sampleRandom n ∧ sampleRandom n < 1) ∧
    ((resize defaultColors (1 / 2) sampleRandom 2 800 600 sampleState).blobs.length = 6 ∧
      ∀ b ∈ (resize defaultColors (1 / 2) sampleRandom 2 800 600 sampleState).blobs,
        0 ≤ b.x ∧ b.x ≤ 800 ∧ 0 ≤ b.y ∧ b.y ≤ 600 ∧
          ((0 : ℚ) < 800 → b.x < 800) ∧ ((0 : ℚ) < 600 → b.y < 600)) :=
  ⟨by norm_num, by norm_num, sampleRandom_unit,
    resize_six_blobs_on_surface defaultColors (1 / 2) sampleRandom 2 800 600 sampleState
      (by norm_num) (by norm_num) sampleRandom_unit⟩

/-- C2: `updateBlob` leaves `xSpeed`, `ySpeed`, `phase`, the base `radius` and `color`
unchanged for every blob and every container size, wrapped or not. -/
theorem updateBlob_preserves_motion {α : Type} [LinearOrderedField α]
    (width height : α) (blob : Blob α) :
    (updateBlob width height blob).xSpeed = blob.xSpeed ∧
      (updateBlob width height blob).ySpeed = blob.ySpeed ∧
      (updateBlob width height blob).phase = blob.phase ∧
      (updateBlob width height blob).radius = blob.radius ∧
      (updateBlob width height blob).color = blob.color := by
  simp only [updateBlob]
  split_ifs <;> exact ⟨rfl, rfl, rfl, rfl, rfl⟩

/-- C3: for base radius `r ≥ 0` and a container with `w ≥ 0`, `h ≥ 0`, writing
`x1 = x + xSpeed`: the new `x` is `-r` if `x1 > w + r`, is `w + r` if `x1 < -r`, and is
`x1` while `-r ≤ x1 ≤ w + r`; likewise for `y` with `h` and `ySpeed`. -/
theorem updateBlob_wraps_when_fully_out {α : Type} [LinearOrderedField α]
    (w h : α) (blob : Blob α) (hr : 0 ≤ blob.radius) (hw : 0 ≤ w) (hh : 0 ≤ h) :
    (blob.x + blob.xSpeed > w + blob.radius → (updateBlob w h blob).x = -blob.radius) ∧
    (blob.x + blob.xSpeed < -blob.radius → (updateBlob w h blob).x = w + blob.radius) ∧
    (-blob.radius ≤ blob.x + blob.xSpeed → blob.x + blob.xSpeed ≤ w + blob.radius →
      (updateBlob w h blob).x = blob.x + blob.xSpeed) ∧
    (blob.y + blob.ySpeed > h + blob.radius → (updateBlob w h blob).y = -blob.radius) ∧
    (blob.y + blob.ySpeed < -blob.radius → (updateBlob w h blob).y = h + blob.radius) ∧
    (-blob.radius ≤ blob.y + blob.ySpeed → blob.y + blob.ySpeed ≤ h + blob.radius →
      (updateBlob w h blob).y = blob.y + blob.ySpeed) := by
  rw [updateBlob_x, updateBlob_y]
  refine ⟨?_, ?_, ?_, ?_, ?_, ?_⟩
  · intro h1
    have h0 : ¬ blob.x + blob.xSpeed < -blob.radius := by linarith
    simp only [if_neg h0, if_pos h1]
  · intro h1
    have h0 : ¬ w + blob.radius > w + blob.radius := lt_irrefl _
    simp only [if_pos h1, if_neg h0]
  · intro h1 h2
    have h0 : ¬ blob.x + blob.xSpeed < -blob.radius := not_lt.mpr h1
    have h3 : ¬ blob.x + blob.xSpeed > w + blob.radius := not_lt.mpr h2
    simp only [if_neg h0, if_neg h3]
  · intro h1
    have h0 : ¬ blob.y + blob.ySpeed < -blob.radius := by linarith
    simp only [if_neg h0, if_pos h1]
  · intro h1
    have h0 : ¬ h + blob.radius > h + blob.radius := lt_irrefl _
    simp only [if_pos h1, if_neg h0]
  · intro h1 h2
    have h0 : ¬ blob.y + blob.ySpeed < -blob.radius := not_lt.mpr h1
    have h3 : ¬ blob.y + blob.ySpeed > h + blob.radius := not_lt.mpr h2
    simp only [if_neg h0, if_neg h3]

/-- Witness for C3: the example blob on a 1000 × 800 surface. -/
theorem updateBlob_wraps_when_fully_out_witness :
    (0 : ℚ) ≤ sampleBlob.radius ∧ (0 : ℚ) ≤ 1000 ∧ (0 : ℚ) ≤ 800 ∧
    (updateBlob 1000 800 sampleBlob).x = -100 ∧
    (updateBlob 1000 800 sampleBlob).y = 2999 / 10 := by
  have h := updateBlob_wraps_when_fully_out (1000 : ℚ) 800 sampleBlob
    (by norm_num [sampleBlob]) (by norm_num) (by norm_num)
  refine ⟨by norm_num [sampleBlob], by norm_num, by norm_num, ?_, ?_⟩
  · simpa [sampleBlob] using h.1 (by norm_num [sampleBlob])
  · have h6 := h.2.2.2.2.2 (by norm_num [sampleBlob]) (by norm_num [sampleBlob])
    rw [h6]; norm_num [sampleBlob]

/-- C4 (as stated, refuted): on a surface of width 1000 the example blob exits the right
edge, and its new `x` differs from the unwrapped position `x + xSpeed` by no integer
multiple of the width. -/
theorem wrap_not_congruent_mod_width :
    sampleBlob.x + sampleBlob.xSpeed > 1000 + sampleBlob.radius ∧
    ¬ ∃ k : ℤ, (updateBlob 1000 800 sampleBlob).x - (sampleBlob.x + sampleBlob.xSpeed)
        = (k : ℚ) * 1000 := by
  refine ⟨by norm_num [sampleBlob], ?_⟩
  rintro ⟨k, hk⟩
  have hx : (updateBlob 1000 800 sampleBlob).x = -100 := by
    norm_num [updateBlob, sampleBlob]
  rw [hx] at hk
  have h2 : ((k * 5000 : ℤ) : ℚ) = ((-6001 : ℤ) : ℚ) := by
    push_cast
    norm_num [sampleBlob] at hk
    linarith
  have h3 : k * 5000 = -6001 := by exact_mod_cast h2
  omega

/-- C4 (amended): a blob that exits the right edge (`x + xSpeed > w + r`, with `r ≥ 0`
and `w ≥ 0`) is placed at exactly `-r`, so it is moved left by `x + xSpeed + r`, which
is more than `w + 2 r`. -/
theorem wrap_right_exit_lands_left {α : Type} [LinearOrderedField α]
    (w h : α) (blob : Blob α) (hr : 0 ≤ blob.radius) (hw : 0 ≤ w)
    (hexit : blob.x + blob.xSpeed > w + blob.radius) :
    (updateBlob w h blob).x = -blob.radius ∧
      (blob.x + blob.xSpeed) - (updateBlob w h blob).x = blob.x + blob.xSpeed + blob.radius ∧
      (blob.x + blob.xSpeed) - (updateBlob w h blob).x > w + 2 * blob.radius := by
  have hx : (updateBlob w h blob).x = -blob.radius := by
    have h0 : ¬ blob.x + blob.xSpeed < -blob.radius := by linarith
    rw [updateBlob_x]
    simp only [if_neg h0, if_pos hexit]
  rw [hx]
  refine ⟨rfl, by ring, ?_⟩
  simp only [gt_iff_lt] at *
  linarith

/-- Witness for C4 (amended): the example blob on a surface of width 1000. -/
theorem wrap_right_exit_lands_left_witness :
    (0 : ℚ) ≤ sampleBlob.radius ∧ (0 : ℚ) ≤ 1000 ∧
    sampleBlob.x + sampleBlob.xSpeed > 1000 + sampleBlob.radius ∧
    (updateBlob 1000 800 sampleBlob).x = -sampleBlob.radius :=
  ⟨by norm_num [sampleBlob], by norm_num, by norm_num [sampleBlob],
    (wrap_right_exit_lands_left (1000 : ℚ) 800 sampleBlob (by norm_num [sampleBlob])
      (by norm_num) (by norm_num [sampleBlob])).1⟩

/-- C5: for every base radius, phase and real clock value `t`, the pulsating radius
`radius + 20 sin(0.5 t + phase)` of `drawBlob` lies in `[radius - 20, radius + 20]`. -/
theorem pulseRadius_within_twenty (blob : Blob ℝ) (t : ℝ) :
    blob.radius - 20 ≤ pulseRadius blob t ∧ pulseRadius blob t ≤ blob.radius + 20 := by
  unfold pulseRadius
  have h1 := Real.neg_one_le_sin (t * 0.5 + blob.phase)
  have h2 := Real.sin_le_one (t * 0.5 + blob.phase)
  constructor <;> linarith

end FluidBackground

/-! ## Theorems: ProcessTimeline.jsx -/

namespace ProcessTimeline

section Lemmas

variable {α : Type} [LinearOrderedField α]

theorem clamp01_nonneg (v : α) : 0 ≤ clamp01 v := le_max_left _ _

theorem clamp01_le_one (v : α) : clamp01 v ≤ 1 :=
  max_le zero_le_one (min_le_left _ _)

theorem clamp01_mono {u v : α} (h : u ≤ v) : clamp01 u ≤ clamp01 v :=
  max_le_max le_rfl (min_le_min le_rfl h)

theorem clamp01_of_nonpos {v : α} (h : v ≤ 0) : clamp01 v = 0 :=
  max_eq_left ((min_le_right _ _).trans h)

theorem clamp01_of_one_le {v : α} (h : 1 ≤ v) : clamp01 v = 1 := by
  unfold clamp01
  rw [min_eq_left h]
  exact max_eq_right zero_le_one

/-- The window of the timeline trigger in scroll offsets. -/
theorem timeline_window (sectionTop sectionHeight viewportHeight : α) :
    triggerScroll timelineScrollTrigger.start sectionTop sectionHeight viewportHeight
        = sectionTop - 60 / 100 * viewportHeight ∧
      triggerScroll timelineScrollTrigger.stop sectionTop sectionHeight viewportHeight
        = sectionTop + sectionHeight - 30 / 100 * viewportHeight := by
  constructor <;> simp [triggerScroll, timelineScrollTrigger]

theorem Cubic.pointAt_zero (s : Cubic α) : s.pointAt 0 = s.p0 := by
  simp [Cubic.pointAt, bezier]

theorem Cubic.pointAt_one (s : Cubic α) : s.pointAt 1 = s.p3 := by
  simp [Cubic.pointAt, bezier]

/-- Sampling any chain at chain parameter `0` samples its first segment at `0`. -/
theorem sampleSegments_zero (segs : List (Cubic α)) :
    sampleSegments segs 0 = segs.head?.map fun s => s.poseAt 0 := by
  match segs with
  | [] => rfl
  | [s] => simp [sampleSegments]
  | s :: s2 :: rest => simp [sampleSegments]

/-- Sampling any chain at its full chain parameter samples its last segment at `1`. -/
theorem sampleSegments_length (segs : List (Cubic α)) :
    sampleSegments segs (segs.length : α) = segs.getLast?.map fun s => s.poseAt 1 := by
  induction segs with
  | nil => rfl
  | cons s rest ih =>
    match rest, ih with
    | [], _ => simp [sampleSegments]
    | s2 :: rest, ih =>
      have hlen : ¬ (((s :: s2 :: rest).length : Nat) : α) < 1 := by
        simp only [List.length_cons, Nat.cast_add, Nat.cast_one, not_lt]
        have : (0 : α) ≤ (rest.length : α) := Nat.cast_nonneg _
        linarith
      have hsub : (((s :: s2 :: rest).length : Nat) : α) - 1
          = (((s2 :: rest).length : Nat) : α) := by
        simp only [List.length_cons, Nat.cast_add, Nat.cast_one]
        ring
      rw [sampleSegments, if_neg hlen, hsub, ih]
      simp [List.getLast?_cons_cons]

theorem markerPose_zero (segs : List (Cubic α)) :
    markerPose segs 0 = segs.head?.map fun s => s.poseAt 0 := by
  rw [markerPose, zero_mul, sampleSegments_zero]

theorem markerPose_one (segs : List (Cubic α)) :
    markerPose segs 1 = segs.getLast?.map fun s => s.poseAt 1 := by
  rw [markerPose, one_mul, sampleSegments_length]

/-- At `t = 1` a segment is at its last control point, travelling in its end direction. -/
theorem Cubic.poseAt_one_agrees (s : Cubic α) :
    (s.poseAt 1).Agrees { point := s.p3, tangent := s.endDirection } := by
  refine ⟨Cubic.pointAt_one s, ?_⟩
  have t1x : (s.tangentAt 1).x = 3 * (s.p3.x - s.p2.x) := by simp [Cubic.tangentAt, bezierDeriv]
  have t1y : (s.tangentAt 1).y = 3 * (s.p3.y - s.p2.y) := by simp [Cubic.tangentAt, bezierDeriv]
  have s1 : ∀ a b c d : α, bezierSecond a b c d 1 = 6 * (d - 2 * c + b) := by
    intro a b c d; simp [bezierSecond]
  simp only [Cubic.poseAt, Cubic.directionAt, Cubic.endDirection, firstNonzero, Point.to,
    t1x, t1y, s1, bezierThird, lt_irrefl, if_false]
  by_cases h1 : s.p3.x - s.p2.x = 0 ∧ s.p3.y - s.p2.y = 0
  · have c1 : 3 * (s.p3.x - s.p2.x) = 0 ∧ 3 * (s.p3.y - s.p2.y) = 0 := by
      rw [h1.1, h1.2]; simp
    rw [if_pos c1, if_pos h1]
    have ex : s.p2.x = s.p3.x := by linarith [h1.1]
    have ey : s.p2.y = s.p3.y := by linarith [h1.2]
    by_cases h2 : s.p3.x - s.p1.x = 0 ∧ s.p3.y - s.p1.y = 0
    · have c2 : 6 * (s.p3.x - 2 * s.p2.x + s.p1.x) = 0 ∧
          6 * (s.p3.y - 2 * s.p2.y + s.p1.y) = 0 := by
        constructor
        · linarith [h2.1]
        · linarith [h2.2]
      rw [if_pos c2, if_pos h2]
      exact ⟨6, by norm_num, by simp only; linarith [h2.1], by simp only; linarith [h2.2]⟩
    · have c2 : ¬ (6 * (s.p3.x - 2 * s.p2.x + s.p1.x) = 0 ∧
          6 * (s.p3.y - 2 * s.p2.y + s.p1.y) = 0) := by
        rintro ⟨hx, hy⟩
        exact h2 ⟨by linarith, by linarith⟩
      rw [if_neg c2, if_neg h2]
      exact ⟨6, by norm_num, by simp only; linarith, by simp only; linarith⟩
  · have c1 : ¬ (3 * (s.p3.x - s.p2.x) = 0 ∧ 3 * (s.p3.y - s.p2.y) = 0) := by
      rintro ⟨hx, hy⟩
      exact h1 ⟨by linarith, by linarith⟩
    rw [if_neg c1, if_neg h1]
    exact ⟨3, by norm_num, t1x, t1y⟩

/-- At `t = 0` a segment is at its first control point, travelling in its start
direction. -/
theorem Cubic.poseAt_zero_agrees (s : Cubic α) :
    (s.poseAt 0).Agrees { point := s.p0, tangent := s.startDirection } := by
  refine ⟨Cubic.pointAt_zero s, ?_⟩
  have t0x : (s.tangentAt 0).x = 3 * (s.p1.x - s.p0.x) := by simp [Cubic.tangentAt, bezierDeriv]
  have t0y : (s.tangentAt 0).y = 3 * (s.p1.y - s.p0.y) := by simp [Cubic.tangentAt, bezierDeriv]
  have s0 : ∀ a b c d : α, bezierSecond a b c d 0 = 6 * (c - 2 * b + a) := by
    intro a b c d; simp [bezierSecond]
  simp only [Cubic.poseAt, Cubic.directionAt, Cubic.startDirection, firstNonzero, Point.to,
    t0x, t0y, s0, bezierThird, zero_lt_one, if_true]
  by_cases h1 : s.p1.x - s.p0.x = 0 ∧ s.p1.y - s.p0.y = 0
  · have c1 : 3 * (s.p1.x - s.p0.x) = 0 ∧ 3 * (s.p1.y - s.p0.y) = 0 := by
      rw [h1.1, h1.2]; simp
    rw [if_pos c1, if_pos h1]
    by_cases h2 : s.p2.x - s.p0.x = 0 ∧ s.p2.y - s.p0.y = 0
    · have c2 : 6 * (s.p2.x - 2 * s.p1.x + s.p0.x) = 0 ∧
          6 * (s.p2.y - 2 * s.p1.y + s.p0.y) = 0 := by
        constructor
        · linarith [h1.1, h2.1]
        · linarith [h1.2, h2.2]
      rw [if_pos c2, if_pos h2]
      exact ⟨6, by norm_num, by simp only; linarith [h1.1, h2.1],
        by simp only; linarith [h1.2, h2.2]⟩
    · have c2 : ¬ (6 * (s.p2.x - 2 * s.p1.x + s.p0.x) = 0 ∧
          6 * (s.p2.y - 2 * s.p1.y + s.p0.y) = 0) := by
        rintro ⟨hx, hy⟩
        exact h2 ⟨by linarith [h1.1], by linarith [h1.2]⟩
      rw [if_neg c2, if_neg h2]
      exact ⟨6, by norm_num, by simp only; linarith [h1.1], by simp only; linarith [h1.2]⟩
  · have c1 : ¬ (3 * (s.p1.x - s.p0.x) = 0 ∧ 3 * (s.p1.y - s.p0.y) = 0) := by
      rintro ⟨hx, hy⟩
      exact h1 ⟨by linarith, by linarith⟩
    rw [if_neg c1, if_neg h1]
    exact ⟨3, by norm_num, t0x, t0y⟩

/-- On every non-empty chain the marker pose at `p = 0` is the start pose of the path. -/
theorem markerPose_zero_agrees (segs : List (Cubic α)) (hne : segs ≠ []) :
    posesAgree (markerPose segs 0) (startPose segs) := by
  obtain ⟨s, rest, rfl⟩ := List.exists_cons_of_ne_nil hne
  exact ⟨_, _, by rw [markerPose_zero]; rfl, rfl, Cubic.poseAt_zero_agrees s⟩

/-- On every non-empty chain the marker pose at `p = 1` is the end pose of the path. -/
theorem markerPose_one_agrees (segs : List (Cubic α)) (hne : segs ≠ []) :
    posesAgree (markerPose segs 1) (endPose segs) := by
  have hlast : segs.getLast? = some (segs.getLast hne) := List.getLast?_eq_getLast _ hne
  exact ⟨_, _, by rw [markerPose_one, hlast]; rfl, by rw [endPose, hlast]; rfl,
    Cubic.poseAt_one_agrees _⟩

theorem cube_anti {q1 q2 : α} (h12 : q1 ≤ q2) (h1 : q2 ≤ 1) :
    (1 - q2) ^ 3 ≤ (1 - q1) ^ 3 :=
  pow_le_pow_left₀ (by linarith) (by linarith) 3

theorem cube_unit {q : α} (h0 : 0 ≤ q) (h1 : q ≤ 1) :
    0 ≤ (1 - q) ^ 3 ∧ (1 - q) ^ 3 ≤ 1 :=
  ⟨pow_nonneg (by linarith) 3, pow_le_one₀ (by linarith) (by linarith)⟩

/-- A cubic Bernstein combination of four values of an interval stays in the interval. -/
theorem bezier_between {lo hi a b c d t : α}
    (ha : lo ≤ a ∧ a ≤ hi) (hb : lo ≤ b ∧ b ≤ hi) (hc : lo ≤ c ∧ c ≤ hi)
    (hd : lo ≤ d ∧ d ≤ hi) (h0 : 0 ≤ t) (h1 : t ≤ 1) :
    lo ≤ bezier a b c d t ∧ bezier a b c d t ≤ hi := by
  have hu : 0 ≤ 1 - t := by linarith
  have w0 : 0 ≤ (1 - t) ^ 3 := pow_nonneg hu 3
  have w1 : 0 ≤ 3 * (1 - t) ^ 2 * t := by positivity
  have w2 : 0 ≤ 3 * (1 - t) * t ^ 2 := by positivity
  have w3 : 0 ≤ t ^ 3 := pow_nonneg h0 3
  have hsum : (1 - t) ^ 3 + 3 * (1 - t) ^ 2 * t + 3 * (1 - t) * t ^ 2 + t ^ 3 = 1 := by ring
  unfold bezier
  constructor
  · have e1 := mul_le_mul_of_nonneg_left ha.1 w0
    have e2 := mul_le_mul_of_nonneg_left hb.1 w1
    have e3 := mul_le_mul_of_nonneg_left hc.1 w2
    have e4 := mul_le_mul_of_nonneg_left hd.1 w3
    have : lo = ((1 - t) ^ 3 + 3 * (1 - t) ^ 2 * t + 3 * (1 - t) * t ^ 2 + t ^ 3) * lo := by
      rw [hsum, one_mul]
    linarith
  · have e1 := mul_le_mul_of_nonneg_left ha.2 w0
    have e2 := mul_le_mul_of_nonneg_left hb.2 w1
    have e3 := mul_le_mul_of_nonneg_left hc.2 w2
    have e4 := mul_le_mul_of_nonneg_left hd.2 w3
    have : hi = ((1 - t) ^ 3 + 3 * (1 - t) ^ 2 * t + 3 * (1 - t) * t ^ 2 + t ^ 3) * hi := by
      rw [hsum, one_mul]
    linarith

/-- All control points of the flight path have `50 ≤ x ≤ 1150` and `0 ≤ y ≤ 2000`. -/
theorem flightPath_control_points (s : Cubic α) (hs : s ∈ (flightPath : List (Cubic α))) :
    ((50 ≤ s.p0.x ∧ s.p0.x ≤ 1150) ∧ (50 ≤ s.p1.x ∧ s.p1.x ≤ 1150) ∧
      (50 ≤ s.p2.x ∧ s.p2.x ≤ 1150) ∧ (50 ≤ s.p3.x ∧ s.p3.x ≤ 1150)) ∧
    ((0 ≤ s.p0.y ∧ s.p0.y ≤ 2000) ∧ (0 ≤ s.p1.y ∧ s.p1.y ≤ 2000) ∧
      (0 ≤ s.p2.y ∧ s.p2.y ≤ 2000) ∧ (0 ≤ s.p3.y ∧ s.p3.y ≤ 2000)) := by
  simp only [flightPath, flightPathD, toSegments, List.mem_cons, List.mem_singleton,
    List.not_mem_nil, or_false] at hs
  rcases hs with h | h | h | h | h | h | h | h | h | h | h | h | h | h | h | h | h | h | h
    | h | h
  all_goals subst h
  all_goals norm_num

end Lemmas

/-- C6: for the timeline's trigger window (start: section top at 60% of the viewport
height, end: section bottom at 30% of it), on a section of height `≥ 0` in a viewport
of positive height, the progress is monotone non-decreasing in the scroll offset, lies
in `[0,1]`, is `0` at or before the window start and `1` at or after the window end. -/
theorem timeline_progress_monotone_clamped {α : Type} [LinearOrderedField α]
    (sectionTop sectionHeight viewportHeight : α)
    (hH : 0 ≤ sectionHeight) (hV : 0 < viewportHeight) :
    Monotone (progress timelineScrollTrigger sectionTop sectionHeight viewportHeight) ∧
    (∀ scroll, 0 ≤ progress timelineScrollTrigger sectionTop sectionHeight viewportHeight scroll ∧
      progress timelineScrollTrigger sectionTop sectionHeight viewportHeight scroll ≤ 1) ∧
    (∀ scroll, scroll ≤ sectionTop - 60 / 100 * viewportHeight →
      progress timelineScrollTrigger sectionTop sectionHeight viewportHeight scroll = 0) ∧
    (∀ scroll, sectionTop + sectionHeight - 30 / 100 * viewportHeight ≤ scroll →
      progress timelineScrollTrigger sectionTop sectionHeight viewportHeight scroll = 1) := by
  obtain ⟨hS, hE⟩ := timeline_window sectionTop sectionHeight viewportHeight
  have hpos : 0 < sectionTop + sectionHeight - 30 / 100 * viewportHeight
      - (sectionTop - 60 / 100 * viewportHeight) := by linarith
  refine ⟨?_, ?_, ?_, ?_⟩
  · intro a b hab
    simp only [progress, hS, hE]
    exact clamp01_mono (div_le_div_of_nonneg_right (by linarith) hpos.le)
  · intro scroll
    exact ⟨clamp01_nonneg _, clamp01_le_one _⟩
  · intro scroll h
    simp only [progress, hS, hE]
    exact clamp01_of_nonpos (div_nonpos_of_nonpos_of_nonneg (by linarith) hpos.le)
  · intro scroll h
    simp only [progress, hS, hE]
    exact clamp01_of_one_le ((one_le_div hpos).mpr (by linarith))

/-- Witness for C6: a section of height 2400 at document offset 3000 in a viewport of
height 900. -/
theorem timeline_progress_monotone_clamped_witness :
    (0 : ℚ) ≤ 2400 ∧ (0 : ℚ) < 900 ∧
    progress timelineScrollTrigger (3000 : ℚ) 2400 900 2460 = 0 ∧
    progress timelineScrollTrigger (3000 : ℚ) 2400 900 5130 = 1 := by
  have h := timeline_progress_monotone_clamped (3000 : ℚ) 2400 900 (by norm_num) (by norm_num)
  exact ⟨by norm_num, by norm_num, h.2.2.1 2460 (by norm_num), h.2.2.2 5130 (by norm_num)⟩

/-- C7: for every arc length `L` and progress `p`, the timeline drives the dash offset
to `L * (1 - p)` with dash array `L`; at `p = 0` the stroke is as initialised (offset
`L`, fully hidden) and at `p = 1` the offset is `0` (fully shown). -/
theorem dashOffset_complementary {α : Type} [LinearOrderedField α] (L p : α) :
    (pathStyleAt L p).strokeDashoffset = L * (1 - p) ∧
    (pathStyleAt L p).strokeDasharray = L ∧
    pathStyleAt L 0 = initialPathStyle L ∧
    (pathStyleAt L 0).strokeDashoffset = L ∧
    (pathStyleAt L 1).strokeDashoffset = 0 := by
  refine ⟨?_, rfl, ?_, ?_, ?_⟩
  · simp only [pathStyleAt, initialPathStyle, tweenValue, Ease.apply]; ring
  · simp [pathStyleAt, initialPathStyle, tweenValue, Ease.apply]
  · simp [pathStyleAt, initialPathStyle, tweenValue, Ease.apply]
  · simp [pathStyleAt, initialPathStyle, tweenValue, Ease.apply]

/-- C8: for the 5 steps of `STEPS` and every index `i` in `0..4` the loop computes the
reveal window `[75 i / 4, 75 i / 4 + 20]`; step 0 starts at 0, step 4 has `[75, 95]`,
and for `i` in `0..3` the window of step `i + 1` starts strictly before that of step `i`
ends.  The loop sets up exactly these five tweens. -/
theorem step_windows_overlap {α : Type} [LinearOrderedField α] :
    STEPS.length = 5 ∧
    (∀ i : Fin 5, (stepWindow STEPS.length i : α × α)
      = (75 * ((i : Nat) : α) / 4, 75 * ((i : Nat) : α) / 4 + 20)) ∧
    (stepWindow STEPS.length 0 : α × α).1 = 0 ∧
    (stepWindow STEPS.length 4 : α × α) = (75, 95) ∧
    (∀ i : Fin 4, (stepWindow STEPS.length ((i : Nat) + 1) : α × α).1
      < (stepWindow STEPS.length i : α × α).2) ∧
    (stepsForEach stepsRef : List (Option (StepTween α)))
      = (List.range 5).map fun i => some (stepTween STEPS.length i) := by
  have hlen : STEPS.length = 5 := rfl
  have hwin : ∀ i : Nat, (stepWindow 5 i : α × α)
      = (75 * (i : α) / 4, 75 * (i : α) / 4 + 20) := by
    intro i
    simp only [stepWindow, Prod.mk.injEq]
    constructor <;> norm_num <;> ring
  refine ⟨hlen, ?_, ?_, ?_, ?_, ?_⟩
  · intro i; rw [hlen]; exact hwin i
  · rw [hlen, hwin]; norm_num
  · rw [hlen, hwin]; norm_num
  · intro i
    rw [hlen, hwin, hwin]
    push_cast
    linarith
  · rfl

/-- C9: the marker pose sampled from the flight path at `p = 0` is the start of the
path, the point `(600, 0)` heading straight down, the start tangent direction `(0, 50)`;
at `p = 1` it is the end of the path, the point `(600, 2000)` heading along `(100, 5)`,
the end tangent direction (the last two control points coincide, so the direction comes
from the one before them). -/
theorem markerPose_boundary {α : Type} [LinearOrderedField α] :
    posesAgree (markerPose (flightPath : List (Cubic α)) 0) (startPose flightPath) ∧
    startPose (flightPath : List (Cubic α))
      = some { point := { x := 600, y := 0 }, tangent := { x := 0, y := 50 } } ∧
    markerPose (flightPath : List (Cubic α)) 0
      = some { point := { x := 600, y := 0 }, tangent := { x := 0, y := 150 } } ∧
    posesAgree (markerPose (flightPath : List (Cubic α)) 1) (endPose flightPath) ∧
    endPose (flightPath : List (Cubic α))
      = some { point := { x := 600, y := 2000 }, tangent := { x := 100, y := 5 } } ∧
    markerPose (flightPath : List (Cubic α)) 1
      = some { point := { x := 600, y := 2000 }, tangent := { x := 600, y := 30 } } := by
  have hs : startPose (flightPath : List (Cubic α))
      = some { point := { x := 600, y := 0 }, tangent := { x := 0, y := 50 } } := by
    simp only [startPose, flightPath, flightPathD, toSegments, List.head?_cons,
      Option.map_some', Cubic.startDirection, firstNonzero, Point.to]
    norm_num
  have hm0 : markerPose (flightPath : List (Cubic α)) 0
      = some { point := { x := 600, y := 0 }, tangent := { x := 0, y := 150 } } := by
    rw [markerPose_zero]
    simp only [flightPath, flightPathD, toSegments, List.head?_cons, Option.map_some',
      Cubic.poseAt, Cubic.pointAt_zero, Cubic.directionAt, Cubic.tangentAt, bezierDeriv,
      bezierSecond, bezierThird]
    norm_num
  have he : endPose (flightPath : List (Cubic α))
      = some { point := { x := 600, y := 2000 }, tangent := { x := 100, y := 5 } } := by
    simp only [endPose, flightPath, flightPathD, toSegments, List.getLast?_cons_cons,
      List.getLast?_singleton, Option.map_some', Cubic.endDirection, firstNonzero, Point.to]
    norm_num
  have hm1 : markerPose (flightPath : List (Cubic α)) 1
      = some { point := { x := 600, y := 2000 }, tangent := { x := 600, y := 30 } } := by
    rw [markerPose_one]
    simp only [flightPath, flightPathD, toSegments, List.getLast?_cons_cons,
      List.getLast?_singleton, Option.map_some', Cubic.poseAt, Cubic.pointAt_one,
      Cubic.directionAt, Cubic.tangentAt, bezierDeriv, bezierSecond, bezierThird]
    norm_num
  have hne : (flightPath : List (Cubic α)) ≠ [] := by
    simp [flightPath, flightPathD, toSegments]
  exact ⟨markerPose_zero_agrees _ hne, hs, hm0, markerPose_one_agrees _ hne, he, hm1⟩

/-- C10: the visual state of every step depends on its local reveal progress only; at
`q = 0` it is (opacity 0.15, offset 40, blur 5), at `q = 1` it is (1, 0, 0); for
`0 ≤ q1 ≤ q2 ≤ 1` the opacity does not decrease and the offset and blur do not increase,
and every value stays between its endpoint values. -/
theorem step_visual_reveal {α : Type} [LinearOrderedField α]
    (length index : Nat) (q1 q2 : α) (h0 : 0 ≤ q1) (h12 : q1 ≤ q2) (h1 : q2 ≤ 1) :
    (∀ length2 index2 : Nat, ((stepTween length index).visualAt q1 : StepVisual α)
      = (stepTween length2 index2).visualAt q1) ∧
    ((stepTween length index).visualAt 0 : StepVisual α)
      = { opacity := 0.15, y := 40, blur := 5 } ∧
    ((stepTween length index).visualAt 1 : StepVisual α)
      = { opacity := 1, y := 0, blur := 0 } ∧
    ((stepTween length index).visualAt q1).opacity
      ≤ ((stepTween length index).visualAt q2).opacity ∧
    ((stepTween length index).visualAt q2).y ≤ ((stepTween length index).visualAt q1).y ∧
    ((stepTween length index).visualAt q2).blur
      ≤ ((stepTween length index).visualAt q1).blur ∧
    (0.15 ≤ ((stepTween length index).visualAt q1).opacity ∧
      ((stepTween length index).visualAt q1).opacity ≤ 1) ∧
    (0 ≤ ((stepTween length index).visualAt q1).y ∧
      ((stepTween length index).visualAt q1).y ≤ 40) ∧
    (0 ≤ ((stepTween length index).visualAt q1).blur ∧
      ((stepTween length index).visualAt q1).blur ≤ 5) := by
  have hc := cube_anti h12 h1
  obtain ⟨hu0, hu1⟩ := cube_unit h0 (h12.trans h1)
  refine ⟨fun _ _ => rfl, ?_, ?_, ?_, ?_, ?_, ⟨?_, ?_⟩, ⟨?_, ?_⟩, ⟨?_, ?_⟩⟩
  all_goals
    simp only [StepTween.visualAt, stepTween, stepInitial, stepTarget, tweenValue, Ease.apply]
  · norm_num
  · norm_num
  all_goals norm_num
  all_goals nlinarith

/-- Witness for C10: a quarter and a half of the way through the reveal of step 2. -/
theorem step_visual_reveal_witness :
    (0 : ℚ) ≤ 1 / 4 ∧ (1 / 4 : ℚ) ≤ 1 / 2 ∧ (1 / 2 : ℚ) ≤ 1 ∧
    ((stepTween 5 2).visualAt (1 / 4 : ℚ)).opacity
      ≤ ((stepTween 5 2).visualAt (1 / 2 : ℚ)).opacity ∧
    ((stepTween 5 2).visualAt (1 / 2 : ℚ)).y ≤ ((stepTween 5 2).visualAt (1 / 4 : ℚ)).y := by
  have h := step_visual_reveal 5 2 (1 / 4 : ℚ) (1 / 2) (by norm_num) (by norm_num) (by norm_num)
  exact ⟨by norm_num, by norm_num, by norm_num, h.2.2.2.1, h.2.2.2.2.1⟩

/-- C16: every point `B_k(t)` of every cubic segment `k` of the flight path, for `t` in
`[0,1]`, lies inside the view box `0 0 1200 2000`: `0 ≤ x ≤ 1200` and `0 ≤ y ≤ 2000`,
and indeed `50 ≤ x ≤ 1150`. -/
theorem flightPath_inside_viewBox {α : Type} [LinearOrderedField α]
    (s : Cubic α) (hs : s ∈ (flightPath : List (Cubic α))) (t : α) (h0 : 0 ≤ t) (h1 : t ≤ 1) :
    (0 ≤ (s.pointAt t).x ∧ (s.pointAt t).x ≤ 1200) ∧
    (0 ≤ (s.pointAt t).y ∧ (s.pointAt t).y ≤ 2000) ∧
    (50 ≤ (s.pointAt t).x ∧ (s.pointAt t).x ≤ 1150) := by
  obtain ⟨hx, hy⟩ := flightPath_control_points s hs
  have bx := bezier_between hx.1 hx.2.1 hx.2.2.1 hx.2.2.2 h0 h1
  have by1 := bezier_between hy.1 hy.2.1 hy.2.2.1 hy.2.2.2 h0 h1
  refine ⟨⟨?_, ?_⟩, by1, bx⟩
  · exact le_trans (by norm_num) bx.1
  · exact le_trans bx.2 (by norm_num)

/-- Witness for C16: the middle of the third segment, the first leftmost turn of the path. -/
theorem flightPath_inside_viewBox_witness :
    sampleSegment ∈ (flightPath : List (Cubic ℚ)) ∧ (0 : ℚ) ≤ 1 / 2 ∧ (1 / 2 : ℚ) ≤ 1 ∧
    (50 : ℚ) ≤ (sampleSegment.pointAt (1 / 2)).x ∧ (sampleSegment.pointAt (1 / 2)).x ≤ 1150 :=
  ⟨by simp [flightPath, flightPathD, toSegments, sampleSegment], by norm_num, by norm_num,
    (flightPath_inside_viewBox sampleSegment
      (by simp [flightPath, flightPathD, toSegments, sampleSegment]) (1 / 2)
      (by norm_num) (by norm_num)).2.2⟩

end ProcessTimeline

namespace FluidBackground

section DoubleLemmas

theorem log_two_eq {x : ℚ} {e : ℤ} (hx : 0 < x) (h1 : (2 : ℚ) ^ e ≤ x)
    (h2 : x < (2 : ℚ) ^ (e + 1)) : Int.log 2 x = e := by
  have a : e ≤ Int.log 2 x :=
    (Int.zpow_le_iff_le_log (by norm_num) hx).mp (by exact_mod_cast h1)
  have b : Int.log 2 x < e + 1 :=
    (Int.lt_zpow_iff_log_lt (by norm_num) hx).mp (by exact_mod_cast h2)
  omega

/-- The value `1 - 2^-53` is a double. -/
theorem roundDouble_largestBelowOne : roundDouble largestBelowOne = largestBelowOne := by
  have hpos : (0 : ℚ) < 1 - 1 / 2 ^ 53 := by norm_num
  have hlog : Int.log 2 |(1 - 1 / 2 ^ 53 : ℚ)| = -1 := by
    rw [abs_of_pos hpos]
    exact log_two_eq hpos (by norm_num) (by norm_num)
  have hsp : doubleSpacing (1 - 1 / 2 ^ 53) = 1 / 2 ^ 53 := by
    unfold doubleSpacing
    rw [hlog]
    norm_num
  have hfl : ⌊((1 - 1 / 2 ^ 53) / (1 / 2 ^ 53) : ℚ)⌋ = 2 ^ 53 - 1 := by
    rw [Int.floor_eq_iff]
    constructor <;> norm_num
  have hr : roundHalfEven ((1 - 1 / 2 ^ 53) / (1 / 2 ^ 53)) = 2 ^ 53 - 1 := by
    unfold roundHalfEven
    rw [hfl, if_pos (by norm_num)]
  unfold largestBelowOne
  rw [roundDouble, if_neg hpos.ne', hsp, hr]
  norm_num

/-- The product `(1 - 2^-53) * 120` rounds to the double just below 120. -/
theorem roundDouble_product : roundDouble (largestBelowOne * 120) = 120 - 1 / 2 ^ 46 := by
  have hy : largestBelowOne * 120 = 120 - 120 / 2 ^ 53 := by
    unfold largestBelowOne; ring
  have hpos : (0 : ℚ) < 120 - 120 / 2 ^ 53 := by norm_num
  have hlog : Int.log 2 |(120 - 120 / 2 ^ 53 : ℚ)| = 6 := by
    rw [abs_of_pos hpos]
    exact log_two_eq hpos (by norm_num) (by norm_num)
  have hsp : doubleSpacing (120 - 120 / 2 ^ 53) = 1 / 2 ^ 46 := by
    unfold doubleSpacing
    rw [hlog]
    norm_num
  have hfl : ⌊((120 - 120 / 2 ^ 53) / (1 / 2 ^ 46) : ℚ)⌋ = 120 * 2 ^ 46 - 1 := by
    rw [Int.floor_eq_iff]
    constructor <;> norm_num
  have hr : roundHalfEven ((120 - 120 / 2 ^ 53) / (1 / 2 ^ 46)) = 120 * 2 ^ 46 - 1 := by
    unfold roundHalfEven
    rw [hfl, if_pos (by norm_num)]
  rw [hy, roundDouble, if_neg hpos.ne', hsp, hr]
  norm_num

/-- The sum `80 + (120 - 2^-46)` lies half-way between two doubles and rounds to the
even one, 200. -/
theorem roundDouble_sum : roundDouble (80 + (120 - 1 / 2 ^ 46)) = 200 := by
  have hz : (80 : ℚ) + (120 - 1 / 2 ^ 46) = 200 - 1 / 2 ^ 46 := by ring
  have hpos : (0 : ℚ) < 200 - 1 / 2 ^ 46 := by norm_num
  have hlog : Int.log 2 |(200 - 1 / 2 ^ 46 : ℚ)| = 7 := by
    rw [abs_of_pos hpos]
    exact log_two_eq hpos (by norm_num) (by norm_num)
  have hsp : doubleSpacing (200 - 1 / 2 ^ 46) = 1 / 2 ^ 45 := by
    unfold doubleSpacing
    rw [hlog]
    norm_num
  have hfl : ⌊((200 - 1 / 2 ^ 46) / (1 / 2 ^ 45) : ℚ)⌋ = 200 * 2 ^ 45 - 1 := by
    rw [Int.floor_eq_iff]
    constructor <;> norm_num
  have hr : roundHalfEven ((200 - 1 / 2 ^ 46) / (1 / 2 ^ 45)) = 200 * 2 ^ 45 := by
    unfold roundHalfEven
    rw [hfl, if_neg (by norm_num), if_neg (by norm_num), if_neg (by norm_num)]
    norm_num
  rw [hz, roundDouble, if_neg hpos.ne', hsp, hr]
  norm_num

theorem roundHalfEven_ge {q : ℚ} {m : ℤ} (h : (m : ℚ) ≤ q) : m ≤ roundHalfEven q := by
  have hf : m ≤ ⌊q⌋ := Int.le_floor.mpr h
  unfold roundHalfEven
  split_ifs <;> omega

theorem roundHalfEven_le {q : ℚ} {m : ℤ} (h : q ≤ (m : ℚ)) : roundHalfEven q ≤ m := by
  rcases h.lt_or_eq with hlt | heq
  · have hf : ⌊q⌋ < m := Int.floor_lt.mpr hlt
    unfold roundHalfEven
    split_ifs <;> omega
  · have hf : ⌊q⌋ = m := by rw [heq]; exact Int.floor_intCast m
    have hfrac : q - (⌊q⌋ : ℚ) < 1 / 2 := by rw [hf, heq]; norm_num
    unfold roundHalfEven
    rw [if_pos hfrac, hf]

/-- Below `2^53` the doubles are spaced by `1 / 2^n` for a natural `n`, so every integer
is a double. -/
theorem doubleSpacing_eq {x : ℚ} (hx : 0 < x) (hlt : x < 2 ^ 53) :
    ∃ n : ℕ, doubleSpacing x = 1 / 2 ^ n := by
  have hlog : Int.log 2 x < 53 :=
    (Int.lt_zpow_iff_log_lt (by norm_num) hx).mp (by exact_mod_cast hlt)
  refine ⟨(52 - Int.log 2 x).toNat, ?_⟩
  unfold doubleSpacing
  rw [abs_of_pos hx]
  have hk : Int.log 2 x - 52 = -(((52 - Int.log 2 x).toNat : ℕ) : ℤ) := by
    rw [Int.toNat_of_nonneg (by omega)]
    ring
  rw [hk, zpow_neg, zpow_natCast, one_div]

/-- Rounding to a double keeps a value below `2^53` between the integers it lies
between. -/
theorem roundDouble_between {x : ℚ} {a b : ℤ} (hx : 0 ≤ x) (hlt : x < 2 ^ 53)
    (ha : (a : ℚ) ≤ x) (hb : x ≤ (b : ℚ)) :
    (a : ℚ) ≤ roundDouble x ∧ roundDouble x ≤ (b : ℚ) := by
  rcases hx.lt_or_eq with hpos | hzero
  · obtain ⟨n, hn⟩ := doubleSpacing_eq hpos hlt
    have hp : (0 : ℚ) < 2 ^ n := by positivity
    rw [roundDouble, if_neg hpos.ne', hn]
    have hdiv : x / (1 / 2 ^ n) = x * 2 ^ n := by field_simp
    rw [hdiv]
    have h1 : ((a * 2 ^ n : ℤ) : ℚ) ≤ x * 2 ^ n := by
      push_cast
      exact mul_le_mul_of_nonneg_right ha hp.le
    have h2 : x * 2 ^ n ≤ ((b * 2 ^ n : ℤ) : ℚ) := by
      push_cast
      exact mul_le_mul_of_nonneg_right hb hp.le
    have g1 : ((a * 2 ^ n : ℤ) : ℚ) ≤ (roundHalfEven (x * 2 ^ n) : ℚ) := by
      exact_mod_cast roundHalfEven_ge h1
    have g2 : (roundHalfEven (x * 2 ^ n) : ℚ) ≤ ((b * 2 ^ n : ℤ) : ℚ) := by
      exact_mod_cast roundHalfEven_le h2
    push_cast at g1 g2
    constructor
    · rw [mul_one_div, le_div_iff₀ hp]
      exact g1
    · rw [mul_one_div, div_le_iff₀ hp]
      exact g2
  · rw [← hzero] at ha hb ⊢
    simp only [roundDouble, if_true]
    exact ⟨ha, hb⟩

end DoubleLemmas

/-- The double radius `80 + r * 120` of a random value in `[0,1)` lies in `[80, 200]`. -/
theorem radiusDouble_range {r : ℚ} (h0 : 0 ≤ r) (h1 : r < 1) :
    80 ≤ radiusDouble r ∧ radiusDouble r ≤ 200 := by
  have hy0 : (0 : ℚ) ≤ r * 120 := by linarith
  have hy1 : r * 120 ≤ 120 := by linarith
  obtain ⟨f0, f1⟩ := roundDouble_between (x := r * 120) (a := 0) (b := 120) hy0
    (by norm_num; linarith) (by simpa using hy0) (by simpa using hy1)
  have f0q : (0 : ℚ) ≤ roundDouble (r * 120) := by simpa using f0
  have f1q : roundDouble (r * 120) ≤ 120 := by simpa using f1
  obtain ⟨g0, g1⟩ := roundDouble_between (x := 80 + roundDouble (r * 120)) (a := 80)
    (b := 200) (by linarith) (by norm_num; linarith) (by push_cast; linarith)
    (by push_cast; linarith)
  exact ⟨by simpa using g0, by simpa using g1⟩

/-- C11 (as stated, refuted): `1 - 2^-53` is a double in `[0,1)`, and from it the double
arithmetic of `80 + Math.random() * 120` gives exactly 200, outside `[80, 200)`. -/
theorem radius_reaches_two_hundred :
    0 ≤ largestBelowOne ∧ largestBelowOne < 1 ∧
    roundDouble largestBelowOne = largestBelowOne ∧
    radiusDouble largestBelowOne = 200 ∧ ¬ radiusDouble largestBelowOne < 200 := by
  have h : radiusDouble largestBelowOne = 200 := by
    rw [radiusDouble, roundDouble_product, roundDouble_sum]
  refine ⟨by norm_num [largestBelowOne], by norm_num [largestBelowOne],
    roundDouble_largestBelowOne, h, by rw [h]; norm_num⟩

/-- C11 (amended): for every `speed > 0`, non-empty palette and random source with values
in `[0,1)`, each blob `i < 6` produced by `initBlobs` has base radius in `[80, 200]`
(`80 + r * 120` for its random value `r`, below 200 in exact arithmetic and at most 200
as double arithmetic rounds it), `xSpeed` and `ySpeed` in `[-speed/2, speed/2)`, phase
in `[0, 2 Math.PI)` (and `Math.PI` is below π, so in `[0, 2π)`), and colour
`palette[i mod paletteLength]`. -/
theorem initBlobs_blob_ranges (colors : List String) (speed : ℚ) (random : Nat → ℚ)
    (s : State ℚ) (hspeed : 0 < speed) (hcolors : colors ≠ [])
    (hr : ∀ n, 0 ≤ random n ∧ random n < 1) (i : Nat) (hi : i < 6) :
    ∃ b, (initBlobs colors speed random s).blobs[i]? = some b ∧
      (b.radius = 80 + random (s.draws + 6 * i + 2) * 120 ∧
        80 ≤ b.radius ∧ b.radius ≤ 200) ∧
      (80 ≤ radiusDouble (random (s.draws + 6 * i + 2)) ∧
        radiusDouble (random (s.draws + 6 * i + 2)) ≤ 200) ∧
      (-(speed / 2) ≤ b.xSpeed ∧ b.xSpeed < speed / 2) ∧
      (-(speed / 2) ≤ b.ySpeed ∧ b.ySpeed < speed / 2) ∧
      (0 ≤ b.phase ∧ b.phase < 2 * Math_PI) ∧
      (b.color = colors[i % colors.length]? ∧ ∃ c, b.color = some c) ∧
      (Math_PI : ℝ) < Real.pi := by
  have hrad := newBlob_radius colors speed random s.width s.height (s.draws + 6 * i) i hr
  refine ⟨_, initBlobs_getElem colors speed random s i hi, ⟨rfl, hrad.1, hrad.2.le⟩,
    radiusDouble_range (hr _).1 (hr _).2, ?_, ?_, ?_, ?_, Math_PI_lt_pi⟩
  · exact (newBlob_speeds colors speed random s.width s.height _ i hspeed hr).1
  · exact (newBlob_speeds colors speed random s.width s.height _ i hspeed hr).2
  · exact newBlob_phase colors speed random s.width s.height _ i hr
  · refine ⟨rfl, ?_⟩
    have hlen : 0 < colors.length := List.length_pos.mpr hcolors
    have hlt : i % colors.length < colors.length := Nat.mod_lt _ hlen
    exact ⟨colors[i % colors.length], by simp [newBlob, List.getElem?_eq_getElem hlt]⟩

/-- Witness for C11 (amended): the fifth blob (`i = 4`) of the default palette at speed
0.4. -/
theorem initBlobs_blob_ranges_witness :
    (0 : ℚ) < 2 / 5 ∧ defaultColors ≠ [] ∧
    (∀ n, 0 ≤ sampleRandom n ∧ sampleRandom n < 1) ∧ 4 < 6 ∧
    ∃ b, (initBlobs defaultColors (2 / 5) sampleRandom sampleState).blobs[4]? = some b ∧
      (80 ≤ b.radius ∧ b.radius ≤ 200) ∧ b.color = some "#ff9500" := by
  obtain ⟨b, hb, hrad, -, -, -, -, hcol, -⟩ :=
    initBlobs_blob_ranges defaultColors (2 / 5 : ℚ) sampleRandom sampleState (by norm_num)
      (by simp [defaultColors]) sampleRandom_unit 4 (by norm_num)
  exact ⟨by norm_num, by simp [defaultColors], sampleRandom_unit, by norm_num,
    b, hb, hrad.2, by rw [hcol.1]; rfl⟩

/-- C15: for every container with `w ≥ 0` and `h ≥ 0`, every blob made by `initBlobs`
(through `resize`) stays, after any number of `updateBlob` steps, within one base radius
of the surface: `-radius ≤ x ≤ w + radius` and `-radius ≤ y ≤ h + radius`. -/
theorem blobs_stay_within_reach {α : Type} [LinearOrderedField α]
    (colors : List String) (speed : α) (random : Nat → α) (pixelRatio w h : α)
    (s : State α) (hw : 0 ≤ w) (hh : 0 ≤ h) (hr : ∀ n, 0 ≤ random n ∧ random n < 1)
    (b : Blob α) (hb : b ∈ (resize colors speed random pixelRatio w h s).blobs) (n : Nat) :
    -((updateBlob w h)^[n] b).radius ≤ ((updateBlob w h)^[n] b).x ∧
    ((updateBlob w h)^[n] b).x ≤ w + ((updateBlob w h)^[n] b).radius ∧
    -((updateBlob w h)^[n] b).radius ≤ ((updateBlob w h)^[n] b).y ∧
    ((updateBlob w h)^[n] b).y ≤ h + ((updateBlob w h)^[n] b).radius := by
  obtain ⟨hsurf, hrad⟩ := resize_blob_fresh colors speed random pixelRatio w h s hw hh hr b hb
  exact (iterate_updateBlob_withinReach w h hw hh b (by linarith)
    (withinReach_of_onSurface (by linarith) hsurf) n).1

/-- Witness for C15: the first blob after a resize to 800 × 600, 500 frames later. -/
theorem blobs_stay_within_reach_witness :
    (0 : ℚ) ≤ 800 ∧ (0 : ℚ) ≤ 600 ∧ (∀ n, 0 ≤ sampleRandom n ∧ sampleRandom n < 1) ∧
    newBlob defaultColors (1 / 2) sampleRandom 800 600 12 0
      ∈ (resize defaultColors (1 / 2) sampleRandom 2 800 600 sampleState).blobs ∧
    ((updateBlob 800 600)^[500] (newBlob defaultColors (1 / 2) sampleRandom 800 600 12 0)).x
      ≤ 800 + ((updateBlob 800 600)^[500]
          (newBlob defaultColors (1 / 2) sampleRandom 800 600 12 0)).radius := by
  have hmem : newBlob defaultColors (1 / 2) sampleRandom 800 600 12 0
      ∈ (resize defaultColors (1 / 2) sampleRandom 2 800 600 sampleState).blobs := by
    rw [resize_blobs]
    simp [List.range_succ_eq_map, numBlobs, sampleState]
  exact ⟨by norm_num, by norm_num, sampleRandom_unit, hmem,
    (blobs_stay_within_reach defaultColors (1 / 2 : ℚ) sampleRandom 2 800 600 sampleState
      (by norm_num) (by norm_num) sampleRandom_unit _ hmem 500).2.1⟩

end FluidBackground

namespace App

section Lemmas

variable {α : Type} [LinearOrderedField α]

theorem parallax_clamped_unit (innerHeight firstTop lastTop : α) :
    0 ≤ (parallax innerHeight firstTop lastTop).clampedProgress ∧
      (parallax innerHeight firstTop lastTop).clampedProgress ≤ 1 :=
  ⟨le_max_left _ _, max_le zero_le_one (min_le_left _ _)⟩

theorem parallax_first_centred (innerHeight firstTop lastTop : α)
    (h : (parallax innerHeight firstTop lastTop).firstPointY
      = (parallax innerHeight firstTop lastTop).windowCenter) :
    (parallax innerHeight firstTop lastTop).clampedProgress = 0 := by
  simp only [parallax] at h ⊢
  rw [h]
  simp

/-- With the last service point below the first one, the progress is 1 when the last
point is at the window centre. -/
theorem parallax_last_centred_of_pos (innerHeight firstTop lastTop : α)
    (hpos : 0 < (parallax innerHeight firstTop lastTop).totalDistance)
    (h : (parallax innerHeight firstTop lastTop).lastPointY
      = (parallax innerHeight firstTop lastTop).windowCenter) :
    (parallax innerHeight firstTop lastTop).clampedProgress = 1 := by
  simp only [parallax] at h hpos ⊢
  rw [← h, if_pos hpos.ne', abs_of_pos hpos, div_self hpos.ne']
  simp

/-- On desktop, with both refs set and at least one service item, `handleScroll` writes
`|totalDistance| * clampedProgress`. -/
theorem handleScroll_desktop (i : ScrollInput α) (hwide : 768 < i.innerWidth)
    (ht : i.titleMounted = true) (hr : i.rightMounted = true) (firstTop lastTop : α)
    (hfirst : i.itemTops.head? = some firstTop) (hlast : i.itemTops.getLast? = some lastTop) :
    handleScroll i = some (|(parallax i.innerHeight firstTop lastTop).totalDistance|
      * (parallax i.innerHeight firstTop lastTop).clampedProgress) := by
  simp only [handleScroll, if_neg (not_le.mpr hwide), ht, hr, hfirst, hlast]
  simp [parallax]

end Lemmas

/-- C14 (as stated, refuted): on a desktop window of height 800 with the first service
item at `top = 565` and the last at `top = 365`, the last service point is at the window
centre and `totalDistance` is `-200`, not zero, yet the clamped progress is `0`, not `1`,
and the title is written `translateY(0px)`. -/
theorem parallax_reversed_last_centred :
    768 < reversedInput.innerWidth ∧
    reversedInput.itemTops.head? = some 565 ∧ reversedInput.itemTops.getLast? = some 365 ∧
    (parallax (800 : ℚ) 565 365).lastPointY = (parallax (800 : ℚ) 565 365).windowCenter ∧
    (parallax (800 : ℚ) 565 365).totalDistance ≠ 0 ∧
    (parallax (800 : ℚ) 565 365).totalDistance = -200 ∧
    (parallax (800 : ℚ) 565 365).progress = -1 ∧
    (parallax (800 : ℚ) 565 365).clampedProgress = 0 ∧
    (parallax (800 : ℚ) 565 365).clampedProgress ≠ 1 ∧
    handleScroll reversedInput = some 0 := by
  have habs : |(-200 : ℚ)| = 200 := by rw [abs_neg]; exact abs_of_pos (by norm_num)
  have htot : (365 : ℚ) + 35 - (565 + 35) = -200 := by norm_num
  have hc : (parallax (800 : ℚ) 565 365).clampedProgress = 0 := by
    simp only [parallax, htot, habs]; norm_num
  refine ⟨by norm_num [reversedInput], by simp [reversedInput], by simp [reversedInput],
    by norm_num [parallax], by norm_num [parallax], by norm_num [parallax], ?_, hc,
    by rw [hc]; norm_num, ?_⟩
  · simp only [parallax, htot, habs]; norm_num
  · simp only [handleScroll, reversedInput, parallax, List.head?_cons, List.getLast?_cons_cons,
      List.getLast?_singleton, htot, habs]
    norm_num

/-- C14 (amended): on desktop (`innerWidth > 768`), with both refs set, for every window
height and every first and last service item with the last one below the first
(`totalDistance > 0`): the clamped progress is `0` when the first service point is at the
window centre and `1` when the last one is, it always lies in `[0,1]`, and the title's
`translateY` is `|totalDistance| * clampedProgress`. -/
theorem parallax_desktop_progress {α : Type} [LinearOrderedField α]
    (i : ScrollInput α) (firstTop lastTop : α) (hwide : 768 < i.innerWidth)
    (ht : i.titleMounted = true) (hr : i.rightMounted = true)
    (hfirst : i.itemTops.head? = some firstTop) (hlast : i.itemTops.getLast? = some lastTop)
    (hbelow : firstTop < lastTop) :
    0 < (parallax i.innerHeight firstTop lastTop).totalDistance ∧
    ((parallax i.innerHeight firstTop lastTop).firstPointY
        = (parallax i.innerHeight firstTop lastTop).windowCenter →
      (parallax i.innerHeight firstTop lastTop).clampedProgress = 0) ∧
    ((parallax i.innerHeight firstTop lastTop).lastPointY
        = (parallax i.innerHeight firstTop lastTop).windowCenter →
      (parallax i.innerHeight firstTop lastTop).clampedProgress = 1) ∧
    (0 ≤ (parallax i.innerHeight firstTop lastTop).clampedProgress ∧
      (parallax i.innerHeight firstTop lastTop).clampedProgress ≤ 1) ∧
    handleScroll i = some (|(parallax i.innerHeight firstTop lastTop).totalDistance|
      * (parallax i.innerHeight firstTop lastTop).clampedProgress) := by
  have hpos : 0 < (parallax i.innerHeight firstTop lastTop).totalDistance := by
    simp only [parallax]; linarith
  exact ⟨hpos, parallax_first_centred _ _ _, parallax_last_centred_of_pos _ _ _ hpos,
    parallax_clamped_unit _ _ _, handleScroll_desktop i hwide ht hr firstTop lastTop hfirst hlast⟩

/-- Witness for C14 (amended): three items in document order in a window of height 1200,
the last service point at the window centre; the title has travelled the full 200 px. -/
theorem parallax_desktop_progress_witness :
    768 < desktopInput.innerWidth ∧ desktopInput.titleMounted = true ∧
    desktopInput.rightMounted = true ∧ desktopInput.itemTops.head? = some 365 ∧
    desktopInput.itemTops.getLast? = some 565 ∧ (365 : ℚ) < 565 ∧
    (parallax desktopInput.innerHeight 365 565).lastPointY
      = (parallax desktopInput.innerHeight 365 565).windowCenter ∧
    (parallax desktopInput.innerHeight 365 565).clampedProgress = 1 ∧
    handleScroll desktopInput = some (|(parallax desktopInput.innerHeight 365 565).totalDistance|
      * (parallax desktopInput.innerHeight 365 565).clampedProgress) := by
  have hc : (parallax desktopInput.innerHeight 365 565).lastPointY
      = (parallax desktopInput.innerHeight 365 565).windowCenter := by
    norm_num [parallax, desktopInput]
  have h := parallax_desktop_progress desktopInput 365 565 (by norm_num [desktopInput]) rfl rfl
    (by simp [desktopInput]) (by simp [desktopInput]) (by norm_num)
  exact ⟨by norm_num [desktopInput], rfl, rfl, by simp [desktopInput], by simp [desktopInput],
    by norm_num, hc, h.2.2.1 hc, h.2.2.2.2⟩

end App

namespace FluidBackground

section DrawLemmas

theorem updateBlob_color {α : Type} [LinearOrderedField α] (w h : α) (blob : Blob α) :
    (updateBlob w h blob).color = blob.color := by
  simp only [updateBlob]
  split_ifs <;> rfl

theorem pulseRadius_ge_sixty (blob : Blob ℝ) (t : ℝ) (hrad : 80 ≤ blob.radius) :
    60 ≤ pulseRadius blob t := by
  unfold pulseRadius
  have h1 := Real.neg_one_le_sin (t * 0.5 + blob.phase)
  linarith

/-- A drawable blob is drawn without an exception. -/
theorem drawBlob_ok (validColor : String → Bool) (blob : Blob ℝ) (t : ℝ)
    (hd : Drawable validColor blob) :
    drawBlob validColor blob t = Except.ok (drawnOf blob t) := by
  obtain ⟨⟨hrad, -⟩, h1, h2, h3⟩ := hd
  have h60 := pulseRadius_ge_sixty blob t hrad
  have hneg : ¬ pulseRadius blob t < 0 := by linarith
  simp only [drawBlob, if_neg hneg, h1, h2, h3, drawnOf]
  simp

/-- A blob whose first colour stop does not parse makes `drawBlob` raise `SyntaxError`. -/
theorem drawBlob_syntaxError (validColor : String → Bool) (blob : Blob ℝ) (t : ℝ)
    (hrad : 80 ≤ blob.radius)
    (hbad : validColor (blob.color.getD "undefined" ++ "cc") = false) :
    drawBlob validColor blob t = Except.error CanvasError.syntaxError := by
  have h60 := pulseRadius_ge_sixty blob t hrad
  have hneg : ¬ pulseRadius blob t < 0 := by linarith
  simp only [drawBlob, if_neg hneg, hbad]
  simp

theorem updateBlob_drawable (validColor : String → Bool) (w h : ℝ) (blob : Blob ℝ)
    (hd : Drawable validColor blob) : Drawable validColor (updateBlob w h blob) := by
  unfold Drawable
  rw [updateBlob_radius, updateBlob_color]
  exact hd

/-- With drawable blobs the loop of `animate` updates and draws every blob. -/
theorem animateBlobs_ok (validColor : String → Bool) (w h t : ℝ) :
    ∀ blobs : List (Blob ℝ), (∀ b ∈ blobs, Drawable validColor b) →
      animateBlobs validColor w h t blobs
        = (blobs.map (updateBlob w h),
            Except.ok ((blobs.map (updateBlob w h)).map fun b => drawnOf b t)) := by
  intro blobs
  induction blobs with
  | nil => intro _; rfl
  | cons blob rest ih =>
    intro hall
    have hb : Drawable validColor (updateBlob w h blob) :=
      updateBlob_drawable validColor w h blob (hall blob (List.mem_cons_self _ _))
    have hrest := ih (fun b hmem => hall b (List.mem_cons_of_mem _ hmem))
    simp only [animateBlobs, drawBlob_ok validColor _ t hb, hrest, List.map_cons]

theorem animateBlobs_head_error (validColor : String → Bool) (w h t : ℝ) (blob : Blob ℝ)
    (rest : List (Blob ℝ)) (e : CanvasError)
    (herr : drawBlob validColor (updateBlob w h blob) t = Except.error e) :
    animateBlobs validColor w h t (blob :: rest)
      = (updateBlob w h blob :: rest, Except.error e) := by
  simp only [animateBlobs, herr]

/-- With drawable blobs `animate` reaches its last statement. -/
theorem animate_ok (validColor : String → Bool) (s : State ℝ) (l : Loop)
    (hall : ∀ b ∈ s.blobs, Drawable validColor b) :
    animate validColor s l =
      { state := { s with time := s.time + 0.016,
                          blobs := s.blobs.map (updateBlob s.width s.height) }
        loop := Loop.requestNext { l with frames := l.frames + 1 }
        outcome := Except.ok ((s.blobs.map (updateBlob s.width s.height)).map
          fun b => drawnOf b (s.time + 0.016)) } := by
  simp only [animate, animateBlobs_ok validColor s.width s.height (s.time + 0.016) s.blobs hall]

/-- An exception in the loop of `animate` leaves `animate` without a frame request. -/
theorem animate_error (validColor : String → Bool) (s : State ℝ) (l : Loop)
    (blobs : List (Blob ℝ)) (e : CanvasError)
    (herr : animateBlobs validColor s.width s.height (s.time + 0.016) s.blobs
      = (blobs, Except.error e)) :
    animate validColor s l =
      { state := { s with time := s.time + 0.016, blobs := blobs }
        loop := { l with frames := l.frames + 1 }
        outcome := Except.error e } := by
  simp only [animate, herr]

theorem Loop.requestNext_ticking (l : Loop) (h : l.pending = []) : l.requestNext.Ticking :=
  ⟨l.lastHandle + 1, Nat.succ_ne_zero _, by simp [Loop.requestNext, requestAnimationFrame, h],
    by simp [Loop.requestNext, requestAnimationFrame]⟩

theorem Loop.cleanup_of_ticking {l : Loop} (ht : l.Ticking) :
    l.cleanup.pending = [] ∧ l.cleanup.listening = false ∧ l.cleanup.frames = l.frames := by
  obtain ⟨handle, h0, hp, hr⟩ := ht
  simp [Loop.cleanup, hr, h0, cancelAnimationFrame, hp]

/-- Every blob left by `resize` is drawable when the palette is non-empty and each of its
entries parses with the three alpha suffixes. -/
theorem resize_blob_drawable (validColor : String → Bool) (colors : List String)
    (speed : ℝ) (random : Nat → ℝ) (pixelRatio w h : ℝ) (s : State ℝ)
    (hcolors : colors ≠ [])
    (hvalid : ∀ c ∈ colors, validColor (c ++ "cc") = true ∧ validColor (c ++ "66") = true ∧
      validColor (c ++ "00") = true)
    (hr : ∀ n, 0 ≤ random n ∧ random n < 1)
    (b : Blob ℝ) (hb : b ∈ (resize colors speed random pixelRatio w h s).blobs) :
    Drawable validColor b := by
  rw [resize_blobs] at hb
  obtain ⟨k, -, rfl⟩ := List.mem_map.mp hb
  have hlen : 0 < colors.length := List.length_pos.mpr hcolors
  have hlt : k % colors.length < colors.length := Nat.mod_lt _ hlen
  have hcol : (newBlob colors speed random w h (s.draws + 6 * k) k).color
      = some colors[k % colors.length] := by
    simp [newBlob, List.getElem?_eq_getElem hlt]
  obtain ⟨v1, v2, v3⟩ := hvalid _ (List.getElem_mem hlt)
  have hrad := newBlob_radius colors speed random w h (s.draws + 6 * k) k hr
  refine ⟨⟨hrad.1, hrad.2.le⟩, ?_, ?_, ?_⟩
  · rw [hcol]; exact v1
  · rw [hcol]; exact v2
  · rw [hcol]; exact v3

theorem resize_width_height {α : Type} [LinearOrderedField α] (colors : List String)
    (speed : α) (random : Nat → α) (pixelRatio w h : α) (s : State α) :
    (resize colors speed random pixelRatio w h s).width = w ∧
      (resize colors speed random pixelRatio w h s).height = h := by
  have key : ∀ (remaining i : Nat) (s : State α),
      (initBlobsLoop colors speed random remaining i s).width = s.width ∧
        (initBlobsLoop colors speed random remaining i s).height = s.height := by
    intro remaining
    induction remaining with
    | zero => intro i s; exact ⟨rfl, rfl⟩
    | succ n ih => intro i s; rw [initBlobsLoop]; exact ih _ _
  exact key _ _ _

/-- With a drawable palette the effect body runs to its end: one request is pending and
the listener is registered. -/
theorem mountEffect_ok (validColor : String → Bool) (colors : List String)
    (speed : ℝ) (random : Nat → ℝ) (pixelRatio w h : ℝ) (s : State ℝ) (l : Loop)
    (hall : ∀ b ∈ (resize colors speed random pixelRatio w h s).blobs, Drawable validColor b) :
    mountEffect validColor colors speed random pixelRatio w h s l =
      { state := { resize colors speed random pixelRatio w h s with
          time := (resize colors speed random pixelRatio w h s).time + 0.016,
          blobs := (resize colors speed random pixelRatio w h s).blobs.map
            (updateBlob (resize colors speed random pixelRatio w h s).width
              (resize colors speed random pixelRatio w h s).height) }
        loop := { Loop.requestNext { l with frames := l.frames + 1 } with listening := true }
        outcome := Except.ok (((resize colors speed random pixelRatio w h s).blobs.map
            (updateBlob (resize colors speed random pixelRatio w h s).width
              (resize colors speed random pixelRatio w h s).height)).map
          fun b => drawnOf b ((resize colors speed random pixelRatio w h s).time + 0.016)) } := by
  simp only [mountEffect, animate_ok validColor _ l hall]

theorem map_updateBlob_drawable (validColor : String → Bool) (w h : ℝ)
    (blobs : List (Blob ℝ)) (hall : ∀ b ∈ blobs, Drawable validColor b) :
    ∀ b ∈ blobs.map (updateBlob w h), Drawable validColor b := by
  intro b hb
  obtain ⟨b0, hb0, rfl⟩ := List.mem_map.mp hb
  exact updateBlob_drawable validColor w h b0 (hall b0 hb0)

/-- What a frame draws: a radius of at least 60 and a centre at most 200 beyond the
surface on each side. -/
theorem drawn_bounds (validColor : String → Bool) (w h t : ℝ) (hw : 0 ≤ w) (hh : 0 ≤ h)
    (blobs : List (Blob ℝ)) (hall : ∀ b ∈ blobs, Drawable validColor b) :
    ∀ d ∈ (blobs.map (updateBlob w h)).map (fun b => drawnOf b t),
      60 ≤ d.pulseRadius ∧ (-200 ≤ d.x ∧ d.x ≤ w + 200) ∧ (-200 ≤ d.y ∧ d.y ≤ h + 200) := by
  intro d hd
  obtain ⟨b1, hb1, rfl⟩ := List.mem_map.mp hd
  obtain ⟨b0, hb0, rfl⟩ := List.mem_map.mp hb1
  obtain ⟨⟨hlo, hhi⟩, -⟩ := hall b0 hb0
  obtain ⟨h1, h2, h3, h4⟩ := updateBlob_withinReach w h hw hh b0 (by linarith)
  rw [updateBlob_radius] at h1 h2 h3 h4
  refine ⟨pulseRadius_ge_sixty _ t (by rw [updateBlob_radius]; exact hlo), ⟨?_, ?_⟩, ⟨?_, ?_⟩⟩
  all_goals simp only [drawnOf]
  all_goals linarith

/-- An event keeps a ticking animator with drawable blobs ticking with drawable blobs. -/
theorem step_keeps_ticking (validColor : String → Bool) (colors : List String)
    (speed : ℝ) (random : Nat → ℝ) (hcolors : colors ≠ [])
    (hvalid : ∀ c ∈ colors, validColor (c ++ "cc") = true ∧ validColor (c ++ "66") = true ∧
      validColor (c ++ "00") = true)
    (hr : ∀ n, 0 ≤ random n ∧ random n < 1) {c c2 : State ℝ × Loop}
    (hall : ∀ b ∈ c.1.blobs, Drawable validColor b) (ht : c.2.Ticking)
    (hstep : Step validColor colors speed random c c2) :
    (∀ b ∈ c2.1.blobs, Drawable validColor b) ∧ c2.2.Ticking := by
  cases hstep with
  | frame s l handle hmem =>
    obtain ⟨h1, -, hp, -⟩ := ht
    have hpend : ({ l with pending := l.pending.erase handle } : Loop).pending = [] := by
      simp only at hp hmem
      rw [hp] at hmem
      rw [List.mem_singleton.mp hmem]
      simp [hp]
    rw [fireFrame, animate_ok validColor s _ hall]
    exact ⟨map_updateBlob_drawable validColor _ _ _ hall, Loop.requestNext_ticking _ hpend⟩
  | resized s l pixelRatio w h hlis =>
    exact ⟨resize_blob_drawable validColor colors speed random pixelRatio w h s hcolors hvalid hr,
      ht⟩

theorem reach_keeps_ticking (validColor : String → Bool) (colors : List String)
    (speed : ℝ) (random : Nat → ℝ) (hcolors : colors ≠ [])
    (hvalid : ∀ c ∈ colors, validColor (c ++ "cc") = true ∧ validColor (c ++ "66") = true ∧
      validColor (c ++ "00") = true)
    (hr : ∀ n, 0 ≤ random n ∧ random n < 1) {c c2 : State ℝ × Loop}
    (hall : ∀ b ∈ c.1.blobs, Drawable validColor b) (ht : c.2.Ticking)
    (hreach : Relation.ReflTransGen (Step validColor colors speed random) c c2) :
    (∀ b ∈ c2.1.blobs, Drawable validColor b) ∧ c2.2.Ticking := by
  induction hreach with
  | refl => exact ⟨hall, ht⟩
  | tail _ hstep ih =>
    exact step_keeps_ticking validColor colors speed random hcolors hvalid hr ih.1 ih.2 hstep

/-- With nothing pending and no listener, no event reaches the animator any more. -/
theorem quiet_stays (validColor : String → Bool) (colors : List String)
    (speed : ℝ) (random : Nat → ℝ) {c c2 : State ℝ × Loop}
    (hp : c.2.pending = []) (hl : c.2.listening = false)
    (hreach : Relation.ReflTransGen (Step validColor colors speed random) c c2) : c2 = c := by
  induction hreach with
  | refl => rfl
  | tail _ hstep ih =>
    subst ih
    cases hstep with
    | frame s l handle hmem => simp only at hp; rw [hp] at hmem; cases hmem
    | resized s l pixelRatio w h hlis => simp only at hl; rw [hl] at hlis; cases hlis

theorem sampleRandomReal_unit (n : Nat) : 0 ≤ sampleRandomReal n ∧ sampleRandomReal n < 1 := by
  obtain ⟨h0, h1⟩ := sampleRandom_unit n
  unfold sampleRandomReal
  exact ⟨by exact_mod_cast h0, by exact_mod_cast h1⟩

theorem defaultColors_valid : ∀ c ∈ defaultColors,
    cssHexColor (c ++ "cc") = true ∧ cssHexColor (c ++ "66") = true ∧
      cssHexColor (c ++ "00") = true := by
  simp only [defaultColors, List.mem_cons, List.mem_singleton, List.not_mem_nil, or_false]
  rintro c (h | h | h) <;> subst h <;> decide

/-- With the palette `['red']` the effect body is left by a `SyntaxError` in the first
`drawBlob`: no frame is requested and no listener is added. -/
theorem mountEffect_red (s : State ℝ) (l : Loop) :
    (mountEffect cssHexColor ["red"] (2 / 5) sampleRandomReal 1 800 600 s l).outcome
        = Except.error CanvasError.syntaxError ∧
      (mountEffect cssHexColor ["red"] (2 / 5) sampleRandomReal 1 800 600 s l).loop
        = { l with frames := l.frames + 1 } := by
  have hbad : cssHexColor ("red" ++ "cc") = false := by decide
  have hrad := (newBlob_radius ["red"] (2 / 5 : ℝ) sampleRandomReal 800 600
    (s.draws + 6 * 0) 0 sampleRandomReal_unit).1
  have hwh := resize_width_height ["red"] (2 / 5 : ℝ) sampleRandomReal 1 800 600 s
  have hdraw := drawBlob_syntaxError cssHexColor
    (updateBlob 800 600 (newBlob ["red"] (2 / 5 : ℝ) sampleRandomReal 800 600
      (s.draws + 6 * 0) 0))
    ((resize ["red"] (2 / 5 : ℝ) sampleRandomReal 1 800 600 s).time + 0.016)
    (by rw [updateBlob_radius]; exact hrad)
    (by rw [updateBlob_color]; exact hbad)
  have hblobs := resize_blobs ["red"] (2 / 5 : ℝ) sampleRandomReal 1 800 600 s
  rw [numBlobs, List.range_succ_eq_map, List.map_cons] at hblobs
  have herr := animateBlobs_head_error cssHexColor 800 600 _ _
    (List.map (fun k => newBlob ["red"] (2 / 5 : ℝ) sampleRandomReal 800 600 (s.draws + 6 * k) k)
      (List.map Nat.succ (List.range 5))) _ hdraw
  rw [← hblobs] at herr
  have hanim := animate_error cssHexColor
    (resize ["red"] (2 / 5 : ℝ) sampleRandomReal 1 800 600 s) l _ _
    (by rw [hwh.1, hwh.2]; exact herr)
  constructor <;> simp only [mountEffect, hanim]

end DrawLemmas

/-- C12 (as stated, refuted): with the non-empty palette `['red']` the first `animate`
after a resize to 800 × 600 raises `SyntaxError`, because `addColorStop` is handed the
string `redcc`. -/
theorem named_colour_palette_raises :
    (["red"] : List String) ≠ [] ∧ cssHexColor "redcc" = false ∧
    (framesAfterMount cssHexColor ["red"] (2 / 5) sampleRandomReal 1 800 600
        sampleStateReal freshLoop 0).outcome
      = Except.error CanvasError.syntaxError := by
  refine ⟨by simp, by decide, ?_⟩
  rw [framesAfterMount]
  exact (mountEffect_red sampleStateReal freshLoop).1

/-- C12 (amended): for every container size `w, h ≥ 0`, zero included, every clock value,
every random source with values in `[0,1)` and every non-empty palette whose entries
parse as colours with the alpha suffixes `cc`, `66` and `00`, a resize followed by the
first `animate` and any number `n` of further frames raises no exception; every frame
draws all 6 blobs with finite coordinates (at most 200 beyond the surface on each side)
and a pulsating radius of at least 60, and leaves the next frame requested. -/
theorem frames_raise_no_error (validColor : String → Bool) (colors : List String)
    (speed : ℝ) (random : Nat → ℝ) (pixelRatio w h : ℝ) (s : State ℝ) (l : Loop)
    (hw : 0 ≤ w) (hh : 0 ≤ h) (hcolors : colors ≠ [])
    (hvalid : ∀ c ∈ colors, validColor (c ++ "cc") = true ∧ validColor (c ++ "66") = true ∧
      validColor (c ++ "00") = true)
    (hr : ∀ n, 0 ≤ random n ∧ random n < 1) (hl : l.pending = []) (n : Nat) :
    ∃ drawn,
      (framesAfterMount validColor colors speed random pixelRatio w h s l n).outcome
        = Except.ok drawn ∧
      (framesAfterMount validColor colors speed random pixelRatio w h s l n).loop.frames
        = l.frames + n + 1 ∧
      (∃ handle,
        (framesAfterMount validColor colors speed random pixelRatio w h s l n).loop.pending
          = [handle] ∧
        (framesAfterMount validColor colors speed random pixelRatio w h s l n).loop.animationRef
          = some handle) ∧
      drawn.length = 6 ∧
      (∀ d ∈ drawn, 60 ≤ d.pulseRadius ∧ (-200 ≤ d.x ∧ d.x ≤ w + 200) ∧
        (-200 ≤ d.y ∧ d.y ≤ h + 200)) ∧
      ∀ b ∈ (framesAfterMount validColor colors speed random pixelRatio w h s l n).state.blobs,
        ∀ t, 60 ≤ pulseRadius b t := by
  have hall := resize_blob_drawable validColor colors speed random pixelRatio w h s
    hcolors hvalid hr
  have hsix : (resize colors speed random pixelRatio w h s).blobs.length = 6 := by
    rw [resize_blobs]; simp [numBlobs]
  have hwh := resize_width_height colors speed random pixelRatio w h s
  have key : ∀ n, ∃ drawn,
      (framesAfterMount validColor colors speed random pixelRatio w h s l n).outcome
        = Except.ok drawn ∧
      (framesAfterMount validColor colors speed random pixelRatio w h s l n).loop.frames
        = l.frames + n + 1 ∧
      (framesAfterMount validColor colors speed random pixelRatio w h s l n).loop.Ticking ∧
      drawn.length = 6 ∧
      (∀ d ∈ drawn, 60 ≤ d.pulseRadius ∧ (-200 ≤ d.x ∧ d.x ≤ w + 200) ∧
        (-200 ≤ d.y ∧ d.y ≤ h + 200)) ∧
      (∀ b ∈ (framesAfterMount validColor colors speed random pixelRatio w h s l n).state.blobs,
        Drawable validColor b) ∧
      (framesAfterMount validColor colors speed random pixelRatio w h s l n).state.blobs.length
        = 6 ∧
      (framesAfterMount validColor colors speed random pixelRatio w h s l n).state.width = w ∧
      (framesAfterMount validColor colors speed random pixelRatio w h s l n).state.height
        = h := by
    intro n
    induction n with
    | zero =>
      rw [framesAfterMount, mountEffect_ok validColor colors speed random pixelRatio w h s l hall]
      refine ⟨_, rfl, ?_, ?_, ?_, ?_, ?_, ?_, hwh.1, hwh.2⟩
      · simp [Loop.requestNext, requestAnimationFrame]
      · obtain ⟨handle, h0, hp, href⟩ := Loop.requestNext_ticking
          { l with frames := l.frames + 1 } hl
        exact ⟨handle, h0, hp, href⟩
      · simp [hsix]
      · rw [hwh.1, hwh.2]
        exact drawn_bounds validColor w h _ hw hh _ hall
      · exact map_updateBlob_drawable validColor _ _ _ hall
      · simp [hsix]
    | succ n ih =>
      obtain ⟨drawn0, -, hfr, ⟨handle, h0, hp, href⟩, -, -, hdr, hlen, hwid, hhei⟩ := ih
      have hpend : ({ (framesAfterMount validColor colors speed random pixelRatio w h s l
          n).loop with pending := (framesAfterMount validColor colors speed random pixelRatio
            w h s l n).loop.pending.erase handle } : Loop).pending = [] := by
        simp [hp]
      rw [framesAfterMount, hp]
      simp only [fireFrame]
      rw [animate_ok validColor _ _ hdr]
      refine ⟨_, rfl, ?_, Loop.requestNext_ticking _ hpend, ?_, ?_, ?_, ?_, hwid, hhei⟩
      · simp only [Loop.requestNext, requestAnimationFrame, hfr]
        omega
      · simp [hlen]
      · rw [hwid, hhei]
        exact drawn_bounds validColor w h _ hw hh _ hdr
      · exact map_updateBlob_drawable validColor _ _ _ hdr
      · simp [hlen]
  obtain ⟨drawn, hout, hfr, ⟨handle, -, hp, href⟩, hlen, hds, hdr, -, -, -⟩ := key n
  exact ⟨drawn, hout, hfr, ⟨handle, hp, href⟩, hlen, hds,
    fun b hb t => pulseRadius_ge_sixty b t (hdr b hb).1.1⟩

/-- Witness for C12 (amended): the default palette on a container of zero size, the first
`animate` and three more frames. -/
theorem frames_raise_no_error_witness :
    (0 : ℝ) ≤ 0 ∧ defaultColors ≠ [] ∧
    (∀ c ∈ defaultColors, cssHexColor (c ++ "cc") = true ∧ cssHexColor (c ++ "66") = true ∧
      cssHexColor (c ++ "00") = true) ∧
    (∀ n, 0 ≤ sampleRandomReal n ∧ sampleRandomReal n < 1) ∧ freshLoop.pending = [] ∧
    ∃ drawn,
      (framesAfterMount cssHexColor defaultColors (2 / 5) sampleRandomReal 2 0 0
          sampleStateReal freshLoop 3).outcome = Except.ok drawn ∧
      (framesAfterMount cssHexColor defaultColors (2 / 5) sampleRandomReal 2 0 0
          sampleStateReal freshLoop 3).loop.frames = 4 ∧
      drawn.length = 6 ∧ ∀ d ∈ drawn, 60 ≤ d.pulseRadius := by
  obtain ⟨drawn, hout, hfr, -, hlen, hds, -⟩ :=
    frames_raise_no_error cssHexColor defaultColors (2 / 5) sampleRandomReal 2 0 0
      sampleStateReal freshLoop le_rfl le_rfl (by simp [defaultColors]) defaultColors_valid
      sampleRandomReal_unit rfl 3
  exact ⟨le_rfl, by simp [defaultColors], defaultColors_valid, sampleRandomReal_unit, rfl,
    drawn, hout, by simpa [freshLoop] using hfr, hlen, fun d hd => (hds d hd).1⟩

/-- C13 (as stated, refuted): with the palette `['red']` the effect body is left by the
exception of the first `drawBlob`, so in the state right after mount no frame request is
pending and `animationRef` is still `null`. -/
theorem named_colour_palette_never_ticks :
    Relation.ReflTransGen (Step cssHexColor ["red"] (2 / 5) sampleRandomReal)
      ((mountEffect cssHexColor ["red"] (2 / 5) sampleRandomReal 1 800 600
          sampleStateReal freshLoop).state,
        (mountEffect cssHexColor ["red"] (2 / 5) sampleRandomReal 1 800 600
          sampleStateReal freshLoop).loop)
      ((mountEffect cssHexColor ["red"] (2 / 5) sampleRandomReal 1 800 600
          sampleStateReal freshLoop).state,
        (mountEffect cssHexColor ["red"] (2 / 5) sampleRandomReal 1 800 600
          sampleStateReal freshLoop).loop) ∧
    (mountEffect cssHexColor ["red"] (2 / 5) sampleRandomReal 1 800 600
        sampleStateReal freshLoop).loop.pending = [] ∧
    (mountEffect cssHexColor ["red"] (2 / 5) sampleRandomReal 1 800 600
        sampleStateReal freshLoop).loop.animationRef = none ∧
    ¬ ∃ handle, (mountEffect cssHexColor ["red"] (2 / 5) sampleRandomReal 1 800 600
        sampleStateReal freshLoop).loop.pending = [handle] := by
  have hloop := (mountEffect_red sampleStateReal freshLoop).2
  refine ⟨Relation.ReflTransGen.refl, by rw [hloop]; rfl, by rw [hloop]; rfl, ?_⟩
  rintro ⟨handle, hp⟩
  rw [hloop] at hp
  cases hp

/-- C13 (amended): for every non-empty palette whose entries parse as colours with the
alpha suffixes `cc`, `66` and `00` and every random source with values in `[0,1)`, in
every state reachable after mount (by frames run by the browser and resize events)
exactly one frame request is pending and `animationRef` holds its handle; after the
unmount cleanup no request is pending and `animate` is never invoked again (no event is
left, so the invocation count stays as it was). -/
theorem loop_ticks_until_cleanup (validColor : String → Bool) (colors : List String)
    (speed : ℝ) (random : Nat → ℝ) (pixelRatio w h : ℝ) (s0 : State ℝ) (l0 : Loop)
    (c : State ℝ × Loop) (hcolors : colors ≠ [])
    (hvalid : ∀ c ∈ colors, validColor (c ++ "cc") = true ∧ validColor (c ++ "66") = true ∧
      validColor (c ++ "00") = true)
    (hr : ∀ n, 0 ≤ random n ∧ random n < 1) (h0 : l0.pending = [])
    (hreach : Relation.ReflTransGen (Step validColor colors speed random)
      ((mountEffect validColor colors speed random pixelRatio w h s0 l0).state,
        (mountEffect validColor colors speed random pixelRatio w h s0 l0).loop) c) :
    (∃ handle, c.2.pending = [handle] ∧ c.2.animationRef = some handle) ∧
    c.2.cleanup.pending = [] ∧
    ∀ c2, Relation.ReflTransGen (Step validColor colors speed random) (c.1, c.2.cleanup) c2 →
      c2.2.pending = [] ∧ c2.2.frames = c.2.frames := by
  have hall := resize_blob_drawable validColor colors speed random pixelRatio w h s0
    hcolors hvalid hr
  have hmount := mountEffect_ok validColor colors speed random pixelRatio w h s0 l0 hall
  have hstart : (∀ b ∈ (mountEffect validColor colors speed random pixelRatio w h s0
        l0).state.blobs, Drawable validColor b) ∧
      (mountEffect validColor colors speed random pixelRatio w h s0 l0).loop.Ticking := by
    rw [hmount]
    refine ⟨map_updateBlob_drawable validColor _ _ _ hall, ?_⟩
    obtain ⟨handle, hne, hp, href⟩ := Loop.requestNext_ticking
      { l0 with frames := l0.frames + 1 } h0
    exact ⟨handle, hne, hp, href⟩
  obtain ⟨-, ht⟩ := reach_keeps_ticking validColor colors speed random hcolors hvalid hr
    hstart.1 hstart.2 hreach
  obtain ⟨hp, hl, hf⟩ := Loop.cleanup_of_ticking ht
  obtain ⟨handle, -, hpend, href⟩ := ht
  refine ⟨⟨handle, hpend, href⟩, hp, ?_⟩
  intro c2 h2
  rw [quiet_stays validColor colors speed random hp hl h2]
  exact ⟨hp, hf⟩

/-- Witness for C13 (amended): the default palette, mounted on a fresh loop, after the
browser has run the first frame request. -/
theorem loop_ticks_until_cleanup_witness :
    defaultColors ≠ [] ∧
    (∀ c ∈ defaultColors, cssHexColor (c ++ "cc") = true ∧ cssHexColor (c ++ "66") = true ∧
      cssHexColor (c ++ "00") = true) ∧
    (∀ n, 0 ≤ sampleRandomReal n ∧ sampleRandomReal n < 1) ∧ freshLoop.pending = [] ∧
    ∃ c, Relation.ReflTransGen (Step cssHexColor defaultColors (2 / 5) sampleRandomReal)
        ((mountEffect cssHexColor defaultColors (2 / 5) sampleRandomReal 2 800 600
            sampleStateReal freshLoop).state,
          (mountEffect cssHexColor defaultColors (2 / 5) sampleRandomReal 2 800 600
            sampleStateReal freshLoop).loop) c ∧
      c.2.frames = 2 ∧
      (∃ handle, c.2.pending = [handle] ∧ c.2.animationRef = some handle) ∧
      c.2.cleanup.pending = [] := by
  have hall := resize_blob_drawable cssHexColor defaultColors (2 / 5) sampleRandomReal 2 800
    600 sampleStateReal (by simp [defaultColors]) defaultColors_valid sampleRandomReal_unit
  have hmount := mountEffect_ok cssHexColor defaultColors (2 / 5) sampleRandomReal 2 800 600
    sampleStateReal freshLoop hall
  have hmem : 1 ∈ (mountEffect cssHexColor defaultColors (2 / 5) sampleRandomReal 2 800 600
      sampleStateReal freshLoop).loop.pending := by
    rw [hmount]; simp [Loop.requestNext, requestAnimationFrame, freshLoop]
  have hstep : Step cssHexColor defaultColors (2 / 5) sampleRandomReal
      ((mountEffect cssHexColor defaultColors (2 / 5) sampleRandomReal 2 800 600
          sampleStateReal freshLoop).state,
        (mountEffect cssHexColor defaultColors (2 / 5) sampleRandomReal 2 800 600
          sampleStateReal freshLoop).loop) _ := Step.frame _ _ 1 hmem
  have hreach := Relation.ReflTransGen.single hstep
  have h := loop_ticks_until_cleanup cssHexColor defaultColors (2 / 5) sampleRandomReal 2 800
    600 sampleStateReal freshLoop _ (by simp [defaultColors]) defaultColors_valid
    sampleRandomReal_unit rfl hreach
  refine ⟨by simp [defaultColors], defaultColors_valid, sampleRandomReal_unit, rfl,
    _, hreach, ?_, h.1, h.2.1⟩
  have hdr : ∀ b ∈ (mountEffect cssHexColor defaultColors (2 / 5) sampleRandomReal 2 800 600
      sampleStateReal freshLoop).state.blobs, Drawable cssHexColor b := by
    rw [hmount]
    exact map_updateBlob_drawable cssHexColor _ _ _ hall
  simp only [fireFrame]
  rw [animate_ok cssHexColor _ _ hdr, hmount]
  simp [Loop.requestNext, requestAnimationFrame, freshLoop]

end FluidBackground

end MovtSU
